import Mathlib

/-!
Verification of the Fluidity USB/IP firmware against its design document.

Source material:
* `usbip` wire structures and enums (`usbip_defs.hpp`, src/unnamed/part_002);
* the abstract `usbip::Device` / `usbip::Provider` interface
  (src/Firmware/main/include/usbip_controller.hpp);
* the TCP reactor (src/Firmware/main/tcp_server.cpp and its header).

The wire codec, session state machine, provider and transfer executor are not
implemented in the repository (the design document, section 9, records this);
where a checked property concerns those missing parts, the corresponding
definitions are modelled from the design document and are marked
`Modelled from the spec:` in their doc comments.  Everything else is a direct
shallow embedding of the C++ sources.
-/

namespace Fluidity

/- ------------------------------------------------------------------ -/
/- Byte-level toolkit: big-endian serialization over `List Nat` bytes -/
/- ------------------------------------------------------------------ -/

/-- Big-endian 16-bit encoding of a natural number into two bytes. -/
def be16 (n : Nat) : List Nat :=
  [n / 2 ^ 8 % 2 ^ 8, n % 2 ^ 8]

/-- Big-endian 32-bit encoding of a natural number into four bytes. -/
def be32 (n : Nat) : List Nat :=
  [n / 2 ^ 24 % 2 ^ 8, n / 2 ^ 16 % 2 ^ 8, n / 2 ^ 8 % 2 ^ 8, n % 2 ^ 8]

/-- Big-endian 64-bit encoding of a natural number into eight bytes. -/
def be64 (n : Nat) : List Nat :=
  [n / 2 ^ 56 % 2 ^ 8, n / 2 ^ 48 % 2 ^ 8, n / 2 ^ 40 % 2 ^ 8,
   n / 2 ^ 32 % 2 ^ 8, n / 2 ^ 24 % 2 ^ 8, n / 2 ^ 16 % 2 ^ 8,
   n / 2 ^ 8 % 2 ^ 8, n % 2 ^ 8]

/-- Big-endian reading of a byte list as a natural number. -/
def deBE (bs : List Nat) : Nat :=
  bs.foldl (fun a b => a * 2 ^ 8 + b) 0

/-- Consume `n` raw bytes from the front of a buffer. -/
def pBytes (n : Nat) (bs : List Nat) : List Nat × List Nat :=
  (bs.take n, bs.drop n)

/-- Consume `n` bytes from the front of a buffer and read them big-endian. -/
def pBE (n : Nat) (bs : List Nat) : Nat × List Nat :=
  (deBE (bs.take n), bs.drop n)

theorem length_be16 (n : Nat) : (be16 n).length = 2 := rfl

theorem length_be32 (n : Nat) : (be32 n).length = 4 := rfl

theorem length_be64 (n : Nat) : (be64 n).length = 8 := rfl

theorem deBE_be16 {n : Nat} (h : n < 2 ^ 16) : deBE (be16 n) = n := by
  simp [deBE, be16, List.foldl]
  omega

theorem deBE_be32 {n : Nat} (h : n < 2 ^ 32) : deBE (be32 n) = n := by
  simp [deBE, be32, List.foldl]
  omega

theorem deBE_be64 {n : Nat} (h : n < 2 ^ 64) : deBE (be64 n) = n := by
  simp [deBE, be64, List.foldl]
  omega

theorem take_append_of_length {l r : List Nat} {n : Nat} (h : l.length = n) :
    (l ++ r).take n = l := by
  subst h; exact List.take_left l r

theorem drop_append_of_length {l r : List Nat} {n : Nat} (h : l.length = n) :
    (l ++ r).drop n = r := by
  subst h; exact List.drop_left l r

theorem pBytes_append {l r : List Nat} {n : Nat} (h : l.length = n) :
    pBytes n (l ++ r) = (l, r) := by
  simp [pBytes, take_append_of_length h, drop_append_of_length h]

theorem pBE_append {l r : List Nat} {n : Nat} (h : l.length = n) :
    pBE n (l ++ r) = (deBE l, r) := by
  simp [pBE, take_append_of_length h, drop_append_of_length h]

theorem pBE_be16 {n : Nat} (h : n < 2 ^ 16) (r : List Nat) :
    pBE 2 (be16 n ++ r) = (n, r) := by
  rw [pBE_append (length_be16 n), deBE_be16 h]

theorem pBE_be32 {n : Nat} (h : n < 2 ^ 32) (r : List Nat) :
    pBE 4 (be32 n ++ r) = (n, r) := by
  rw [pBE_append (length_be32 n), deBE_be32 h]

theorem pBE_be64 {n : Nat} (h : n < 2 ^ 64) (r : List Nat) :
    pBE 8 (be64 n ++ r) = (n, r) := by
  rw [pBE_append (length_be64 n), deBE_be64 h]

/- ------------------------------------------------------------------ -/
/- Wire structures, embedded from `usbip_defs.hpp` (src/unnamed/part_002) -/
/- ------------------------------------------------------------------ -/

namespace usbip

/-- `usbip::VERSION`: USB/IP protocol version 1.1.1. -/
def VERSION : Nat := 0x0111

/-- `usbip::op_code` values (u16). -/
def OP_REQ_DEVLIST : Nat := 0x8005
def OP_REP_DEVLIST : Nat := 0x0005
def OP_REQ_IMPORT : Nat := 0x8003
def OP_REP_IMPORT : Nat := 0x0003

/-- `usbip::op_status` values (u32). -/
def STATUS_OK : Nat := 0x00000000
def STATUS_ERROR : Nat := 0x00000001

/-- `usbip::xfer_command_t` values (u32). -/
def CMD_SUBMIT : Nat := 0x00000001
def RET_SUBMIT : Nat := 0x00000003
def CMD_UNLINK : Nat := 0x00000002
def RET_UNLINK : Nat := 0x00000004

/-- `usbip::xfer_direction_t` values (u32). -/
def DIR_OUT : Nat := 0
def DIR_IN : Nat := 1

/-- `usbip::op_header_t`: version:u16, code:u16, status:u32. -/
structure op_header_t where
  version : Nat
  code : Nat
  status : Nat
  deriving DecidableEq, Repr

/-- `usbip::device_interface_t`: four u8 fields. -/
structure device_interface_t where
  interface_class : Nat
  interface_subclass : Nat
  interface_protocol : Nat
  padding : Nat
  deriving DecidableEq, Repr

/-- `usbip::device_descriptor_t`; the two char arrays are byte lists of
    fixed length 256 and 32. -/
structure device_descriptor_t where
  path : List Nat
  bus_id : List Nat
  bus_num : Nat
  dev_num : Nat
  speed : Nat
  vendor_id : Nat
  product_id : Nat
  device_bcd : Nat
  device_class : Nat
  device_subclass : Nat
  device_protocol : Nat
  configuration_value : Nat
  configuration_num : Nat
  interface_num : Nat
  deriving DecidableEq, Repr

/-- `usbip::op_req_devlist_t`: header only. -/
structure op_req_devlist_t where
  header : op_header_t
  deriving DecidableEq, Repr

/-- `usbip::op_rep_devlist_t`: header, exported_count:u32, descriptor,
    interfaces (array of 4). -/
structure op_rep_devlist_t where
  header : op_header_t
  exported_count : Nat
  descriptor : device_descriptor_t
  interfaces : List device_interface_t
  deriving DecidableEq, Repr

/-- `usbip::op_req_import_t`: header, bus_id:char[32]. -/
structure op_req_import_t where
  header : op_header_t
  bus_id : List Nat
  deriving DecidableEq, Repr

/-- `usbip::op_rep_import_t`: header, descriptor. -/
structure op_rep_import_t where
  header : op_header_t
  descriptor : device_descriptor_t
  deriving DecidableEq, Repr

/-- `usbip::xfer_header_t`: five u32 fields. -/
structure xfer_header_t where
  command : Nat
  seq_num : Nat
  device_id : Nat
  direction : Nat
  endpoint : Nat
  deriving DecidableEq, Repr

/-- `usbip::cmd_submit_t`: xfer_header, five u32 fields, setup:u64,
    then a variable payload. -/
structure cmd_submit_t where
  header : xfer_header_t
  transfer_flags : Nat
  transfer_buffer_length : Nat
  start_frame : Nat
  number_of_packets : Nat
  interval : Nat
  setup : Nat
  payload : List Nat
  deriving DecidableEq, Repr

/-- `usbip::ret_submit_t`: xfer_header, five u32 fields, padding:u64,
    then a variable payload. -/
structure ret_submit_t where
  header : xfer_header_t
  status : Nat
  actual_length : Nat
  start_frame : Nat
  number_of_packets : Nat
  error_count : Nat
  padding : Nat
  payload : List Nat
  deriving DecidableEq, Repr

/-- `usbip::cmd_unlink_t`: xfer_header, unlink_seqnum:u32, padding[24]. -/
structure cmd_unlink_t where
  header : xfer_header_t
  unlink_seqnum : Nat
  padding : List Nat
  deriving DecidableEq, Repr

/-- `usbip::ret_unlink_t`: xfer_header, status:u32, padding[24]. -/
structure ret_unlink_t where
  header : xfer_header_t
  status : Nat
  padding : List Nat
  deriving DecidableEq, Repr

/-- The tagged variant over the eight wire message shapes (design document,
    section 3, "Wire Message"). -/
inductive Message where
  | reqDevlist (m : op_req_devlist_t)
  | repDevlist (m : op_rep_devlist_t)
  | reqImport (m : op_req_import_t)
  | repImport (m : op_rep_import_t)
  | cmdSubmit (m : cmd_submit_t)
  | retSubmit (m : ret_submit_t)
  | cmdUnlink (m : cmd_unlink_t)
  | retUnlink (m : ret_unlink_t)
  deriving DecidableEq, Repr

/- ------------------------------------------------------------------ -/
/- Validity of field values                                            -/
/- ------------------------------------------------------------------ -/

/-- Bytes of a char array are in range. -/
def ByteList (l : List Nat) : Prop := ∀ b ∈ l, b < 2 ^ 8

instance (l : List Nat) : Decidable (ByteList l) :=
  List.decidableBAll _ l

/-- A valid operation-stage header carries the protocol version constant
    `0x0111`, the given code, and a u32 status. -/
def ValidOpHeader (h : op_header_t) (code : Nat) : Prop :=
  h.version = VERSION ∧ h.code = code ∧ h.status < 2 ^ 32

/-- A valid device descriptor: char arrays of exact lengths 256 and 32,
    numeric fields within their declared widths. -/
def ValidDescriptor (d : device_descriptor_t) : Prop :=
  d.path.length = 256 ∧ ByteList d.path ∧
  d.bus_id.length = 32 ∧ ByteList d.bus_id ∧
  d.bus_num < 2 ^ 32 ∧ d.dev_num < 2 ^ 32 ∧ d.speed < 2 ^ 32 ∧
  d.vendor_id < 2 ^ 16 ∧ d.product_id < 2 ^ 16 ∧ d.device_bcd < 2 ^ 16 ∧
  d.device_class < 2 ^ 8 ∧ d.device_subclass < 2 ^ 8 ∧
  d.device_protocol < 2 ^ 8 ∧ d.configuration_value < 2 ^ 8 ∧
  d.configuration_num < 2 ^ 8 ∧ d.interface_num < 2 ^ 8

/-- A valid interface descriptor: four u8 fields. -/
def ValidInterface (i : device_interface_t) : Prop :=
  i.interface_class < 2 ^ 8 ∧ i.interface_subclass < 2 ^ 8 ∧
  i.interface_protocol < 2 ^ 8 ∧ i.padding < 2 ^ 8

/-- A valid transfer-stage header carries the given command and u32 fields;
    the direction is `OUT = 0` or `IN = 1`. -/
def ValidXferHeader (h : xfer_header_t) (command : Nat) : Prop :=
  h.command = command ∧ h.seq_num < 2 ^ 32 ∧ h.device_id < 2 ^ 32 ∧
  (h.direction = DIR_OUT ∨ h.direction = DIR_IN) ∧ h.endpoint < 2 ^ 32

/-- Size in bytes of `usbip::iso_packet_descriptor_t` (four u32 fields). -/
def isoPacketDescriptorSize : Nat := 16

/-- Payload length of a `CMD_SUBMIT`: `transfer_buffer_length` for the OUT
    direction, absent for IN, plus `number_of_packets` isochronous packet
    descriptors (design document, section 4.1). -/
def cmdSubmitPayloadLen (dir tbl nop : Nat) : Nat :=
  (if dir = DIR_OUT then tbl else 0) + nop * isoPacketDescriptorSize

/-- Payload length of a `RET_SUBMIT`: `actual_length` for the IN direction
    (the payload arrives only in the response), absent for OUT, plus the
    isochronous packet descriptors (design document, section 4.1). -/
def retSubmitPayloadLen (dir alen nop : Nat) : Nat :=
  (if dir = DIR_IN then alen else 0) + nop * isoPacketDescriptorSize

/-- Validity of each message shape: header tied to the shape's code or
    command, numeric fields in range, char arrays and paddings of their
    declared sizes, payload length derived as in section 4.1. -/
def Valid : Message → Prop
  | .reqDevlist m => ValidOpHeader m.header OP_REQ_DEVLIST
  | .repDevlist m =>
      ValidOpHeader m.header OP_REP_DEVLIST ∧ m.exported_count < 2 ^ 32 ∧
      ValidDescriptor m.descriptor ∧ m.interfaces.length = 4 ∧
      (∀ i ∈ m.interfaces, ValidInterface i)
  | .reqImport m =>
      ValidOpHeader m.header OP_REQ_IMPORT ∧
      m.bus_id.length = 32 ∧ ByteList m.bus_id
  | .repImport m =>
      ValidOpHeader m.header OP_REP_IMPORT ∧ ValidDescriptor m.descriptor
  | .cmdSubmit m =>
      ValidXferHeader m.header CMD_SUBMIT ∧
      m.transfer_flags < 2 ^ 32 ∧ m.transfer_buffer_length < 2 ^ 32 ∧
      m.start_frame < 2 ^ 32 ∧ m.number_of_packets < 2 ^ 32 ∧
      m.interval < 2 ^ 32 ∧ m.setup < 2 ^ 64 ∧ ByteList m.payload ∧
      m.payload.length =
        cmdSubmitPayloadLen m.header.direction m.transfer_buffer_length
          m.number_of_packets
  | .retSubmit m =>
      ValidXferHeader m.header RET_SUBMIT ∧
      m.status < 2 ^ 32 ∧ m.actual_length < 2 ^ 32 ∧
      m.start_frame < 2 ^ 32 ∧ m.number_of_packets < 2 ^ 32 ∧
      m.error_count < 2 ^ 32 ∧ m.padding < 2 ^ 64 ∧ ByteList m.payload ∧
      m.payload.length =
        retSubmitPayloadLen m.header.direction m.actual_length
          m.number_of_packets
  | .cmdUnlink m =>
      ValidXferHeader m.header CMD_UNLINK ∧
      m.unlink_seqnum < 2 ^ 32 ∧ m.padding.length = 24 ∧ ByteList m.padding
  | .retUnlink m =>
      ValidXferHeader m.header RET_UNLINK ∧
      m.status < 2 ^ 32 ∧ m.padding.length = 24 ∧ ByteList m.padding

instance (h : op_header_t) (c : Nat) : Decidable (ValidOpHeader h c) := by
  unfold ValidOpHeader; infer_instance

instance (d : device_descriptor_t) : Decidable (ValidDescriptor d) := by
  unfold ValidDescriptor; infer_instance

instance (i : device_interface_t) : Decidable (ValidInterface i) := by
  unfold ValidInterface; infer_instance

instance (h : xfer_header_t) (c : Nat) : Decidable (ValidXferHeader h c) := by
  unfold ValidXferHeader; infer_instance

instance : ∀ m : Message, Decidable (Valid m)
  | .reqDevlist _ => inferInstanceAs (Decidable (ValidOpHeader _ _))
  | .repDevlist _ => inferInstanceAs (Decidable (_ ∧ _ ∧ _ ∧ _ ∧ _))
  | .reqImport _ => inferInstanceAs (Decidable (_ ∧ _ ∧ _))
  | .repImport _ => inferInstanceAs (Decidable (_ ∧ _))
  | .cmdSubmit _ => inferInstanceAs (Decidable (_ ∧ _ ∧ _ ∧ _ ∧ _ ∧ _ ∧ _ ∧ _ ∧ _))
  | .retSubmit _ => inferInstanceAs (Decidable (_ ∧ _ ∧ _ ∧ _ ∧ _ ∧ _ ∧ _ ∧ _ ∧ _))
  | .cmdUnlink _ => inferInstanceAs (Decidable (_ ∧ _ ∧ _ ∧ _))
  | .retUnlink _ => inferInstanceAs (Decidable (_ ∧ _ ∧ _ ∧ _))

/- ------------------------------------------------------------------ -/
/- Wire codec                                                          -/
/- ------------------------------------------------------------------ -/

/-- Modelled from the spec: the Wire Codec is not implemented in the
    repository (design document, section 9); its encoder follows the exact
    struct layouts of `usbip_defs.hpp` with all multi-byte integers in
    network byte order (big-endian), per section 4.1 and the section 6
    table.  Encoding of `op_header_t`. -/
def encodeOpHeader (h : op_header_t) : List Nat :=
  be16 h.version ++ be16 h.code ++ be32 h.status

/-- Encoding of `device_interface_t` (four u8 fields). -/
def encodeInterface (i : device_interface_t) : List Nat :=
  [i.interface_class, i.interface_subclass, i.interface_protocol, i.padding]

/-- Encoding of `device_descriptor_t` (312 bytes). -/
def encodeDescriptor (d : device_descriptor_t) : List Nat :=
  d.path ++ d.bus_id ++ be32 d.bus_num ++ be32 d.dev_num ++ be32 d.speed ++
  be16 d.vendor_id ++ be16 d.product_id ++ be16 d.device_bcd ++
  [d.device_class, d.device_subclass, d.device_protocol,
   d.configuration_value, d.configuration_num, d.interface_num]

/-- Encoding of `xfer_header_t` (20 bytes). -/
def encodeXferHeader (h : xfer_header_t) : List Nat :=
  be32 h.command ++ be32 h.seq_num ++ be32 h.device_id ++
  be32 h.direction ++ be32 h.endpoint

/-- Modelled from the spec: `encode(Message) -> bytes` (design document,
    section 4.1), over the struct layouts of `usbip_defs.hpp`. -/
def encode : Message → List Nat
  | .reqDevlist m => encodeOpHeader m.header
  | .repDevlist m =>
      encodeOpHeader m.header ++ be32 m.exported_count ++
      encodeDescriptor m.descriptor ++ (m.interfaces.map encodeInterface).flatten
  | .reqImport m => encodeOpHeader m.header ++ m.bus_id
  | .repImport m => encodeOpHeader m.header ++ encodeDescriptor m.descriptor
  | .cmdSubmit m =>
      encodeXferHeader m.header ++ be32 m.transfer_flags ++
      be32 m.transfer_buffer_length ++ be32 m.start_frame ++
      be32 m.number_of_packets ++ be32 m.interval ++ be64 m.setup ++ m.payload
  | .retSubmit m =>
      encodeXferHeader m.header ++ be32 m.status ++ be32 m.actual_length ++
      be32 m.start_frame ++ be32 m.number_of_packets ++ be32 m.error_count ++
      be64 m.padding ++ m.payload
  | .cmdUnlink m =>
      encodeXferHeader m.header ++ be32 m.unlink_seqnum ++ m.padding
  | .retUnlink m =>
      encodeXferHeader m.header ++ be32 m.status ++ m.padding

/-- Parser for `op_header_t`, consume style. -/
def pOpHeader (bs : List Nat) : op_header_t × List Nat :=
  let (v, r1) := pBE 2 bs
  let (c, r2) := pBE 2 r1
  let (s, r3) := pBE 4 r2
  (⟨v, c, s⟩, r3)

/-- Parser for `device_interface_t`. -/
def pInterface (bs : List Nat) : device_interface_t × List Nat :=
  let (a, r1) := pBE 1 bs
  let (b, r2) := pBE 1 r1
  let (c, r3) := pBE 1 r2
  let (d, r4) := pBE 1 r3
  (⟨a, b, c, d⟩, r4)

/-- Parser for the fixed array of 4 `device_interface_t`. -/
def pInterfaces4 (bs : List Nat) : List device_interface_t × List Nat :=
  let (a, r1) := pInterface bs
  let (b, r2) := pInterface r1
  let (c, r3) := pInterface r2
  let (d, r4) := pInterface r3
  ([a, b, c, d], r4)

/-- Parser for `device_descriptor_t`. -/
def pDescriptor (bs : List Nat) : device_descriptor_t × List Nat :=
  let (path, r1) := pBytes 256 bs
  let (bid, r2) := pBytes 32 r1
  let (bn, r3) := pBE 4 r2
  let (dn, r4) := pBE 4 r3
  let (sp, r5) := pBE 4 r4
  let (vid, r6) := pBE 2 r5
  let (pid, r7) := pBE 2 r6
  let (bcd, r8) := pBE 2 r7
  let (dc, r9) := pBE 1 r8
  let (ds, r10) := pBE 1 r9
  let (dp, r11) := pBE 1 r10
  let (cv, r12) := pBE 1 r11
  let (cn, r13) := pBE 1 r12
  let (inum, r14) := pBE 1 r13
  (⟨path, bid, bn, dn, sp, vid, pid, bcd, dc, ds, dp, cv, cn, inum⟩, r14)

/-- Parser for `xfer_header_t`. -/
def pXferHeader (bs : List Nat) : xfer_header_t × List Nat :=
  let (c, r1) := pBE 4 bs
  let (sq, r2) := pBE 4 r1
  let (di, r3) := pBE 4 r2
  let (dr, r4) := pBE 4 r3
  let (ep, r5) := pBE 4 r4
  (⟨c, sq, di, dr, ep⟩, r5)

/-- Result of one decode attempt (design document, section 4.1:
    `decode(bytes) -> (Message, bytes_consumed) | NeedMoreBytes |
    Malformed`). -/
inductive DecodeResult where
  | ok (m : Message) (consumed : Nat)
  | needMoreBytes
  | malformed
  deriving DecidableEq, Repr

/-- Modelled from the spec: the Wire Codec decoder (design document,
    section 4.1), absent from the repository sources.  It discriminates the
    operation stage (first u16 is the version constant `0x0111`) from the
    transfer stage (first u32 is an `xfer_command_t`), reports
    `NeedMoreBytes` until the fixed header and then the full derived
    payload are buffered, and `Malformed` on an unknown code or command. -/
def decode (bs : List Nat) : DecodeResult :=
  if bs.length < 8 then .needMoreBytes
  else if deBE (bs.take 2) = VERSION then
    let code := deBE ((bs.drop 2).take 2)
    if code = OP_REQ_DEVLIST then
      .ok (.reqDevlist ⟨(pOpHeader bs).1⟩) 8
    else if code = OP_REP_DEVLIST then
      if bs.length < 340 then .needMoreBytes
      else
        let (h, r1) := pOpHeader bs
        let (cnt, r2) := pBE 4 r1
        let (d, r3) := pDescriptor r2
        let (ifs, _) := pInterfaces4 r3
        .ok (.repDevlist ⟨h, cnt, d, ifs⟩) 340
    else if code = OP_REQ_IMPORT then
      if bs.length < 40 then .needMoreBytes
      else
        let (h, r1) := pOpHeader bs
        let (bid, _) := pBytes 32 r1
        .ok (.reqImport ⟨h, bid⟩) 40
    else if code = OP_REP_IMPORT then
      if bs.length < 320 then .needMoreBytes
      else
        let (h, r1) := pOpHeader bs
        let (d, _) := pDescriptor r1
        .ok (.repImport ⟨h, d⟩) 320
    else .malformed
  else
    let cmd := deBE (bs.take 4)
    if cmd = CMD_SUBMIT then
      if bs.length < 48 then .needMoreBytes
      else
        let (h, r1) := pXferHeader bs
        let (tf, r2) := pBE 4 r1
        let (tbl, r3) := pBE 4 r2
        let (sf, r4) := pBE 4 r3
        let (nop, r5) := pBE 4 r4
        let (iv, r6) := pBE 4 r5
        let (su, r7) := pBE 8 r6
        let plen := cmdSubmitPayloadLen h.direction tbl nop
        if r7.length < plen then .needMoreBytes
        else .ok (.cmdSubmit ⟨h, tf, tbl, sf, nop, iv, su, r7.take plen⟩)
               (48 + plen)
    else if cmd = RET_SUBMIT then
      if bs.length < 48 then .needMoreBytes
      else
        let (h, r1) := pXferHeader bs
        let (st, r2) := pBE 4 r1
        let (al, r3) := pBE 4 r2
        let (sf, r4) := pBE 4 r3
        let (nop, r5) := pBE 4 r4
        let (ec, r6) := pBE 4 r5
        let (pad, r7) := pBE 8 r6
        let plen := retSubmitPayloadLen h.direction al nop
        if r7.length < plen then .needMoreBytes
        else .ok (.retSubmit ⟨h, st, al, sf, nop, ec, pad, r7.take plen⟩)
               (48 + plen)
    else if cmd = CMD_UNLINK then
      if bs.length < 48 then .needMoreBytes
      else
        let (h, r1) := pXferHeader bs
        let (useq, r2) := pBE 4 r1
        let (pad, _) := pBytes 24 r2
        .ok (.cmdUnlink ⟨h, useq, pad⟩) 48
    else if cmd = RET_UNLINK then
      if bs.length < 48 then .needMoreBytes
      else
        let (h, r1) := pXferHeader bs
        let (st, r2) := pBE 4 r1
        let (pad, _) := pBytes 24 r2
        .ok (.retUnlink ⟨h, st, pad⟩) 48
    else .malformed

/- Component round-trip lemmas -/

theorem pBE_byte (a : Nat) (r : List Nat) : pBE 1 (a :: r) = (a, r) := by
  simp [pBE, deBE]

theorem pOpHeader_append {h : op_header_t} (r : List Nat)
    (hv : h.version < 2 ^ 16) (hc : h.code < 2 ^ 16) (hs : h.status < 2 ^ 32) :
    pOpHeader (encodeOpHeader h ++ r) = (h, r) := by
  simp [encodeOpHeader, pOpHeader, List.append_assoc,
    pBE_be16 hv, pBE_be16 hc, pBE_be32 hs]

theorem pInterface_append (i : device_interface_t) (r : List Nat) :
    pInterface (encodeInterface i ++ r) = (i, r) := by
  simp [encodeInterface, pInterface, pBE_byte]

theorem pInterfaces4_append {l : List device_interface_t} {r : List Nat}
    (hl : l.length = 4) :
    pInterfaces4 ((l.map encodeInterface).flatten ++ r) = (l, r) := by
  match l, hl with
  | [a, b, c, d], _ =>
    simp [pInterfaces4, List.append_assoc, pInterface_append]

theorem pDescriptor_append {d : device_descriptor_t} {r : List Nat}
    (hd : ValidDescriptor d) :
    pDescriptor (encodeDescriptor d ++ r) = (d, r) := by
  obtain ⟨h1, _, h3, _, h5, h6, h7, h8, h9, h10, _⟩ := hd
  simp [encodeDescriptor, pDescriptor, List.append_assoc,
    pBytes_append h1, pBytes_append h3, pBE_be32 h5, pBE_be32 h6,
    pBE_be32 h7, pBE_be16 h8, pBE_be16 h9, pBE_be16 h10, pBE_byte]

theorem pXferHeader_append {h : xfer_header_t} (r : List Nat)
    (hc : h.command < 2 ^ 32) (hs : h.seq_num < 2 ^ 32)
    (hd : h.device_id < 2 ^ 32) (hdir : h.direction < 2 ^ 32)
    (he : h.endpoint < 2 ^ 32) :
    pXferHeader (encodeXferHeader h ++ r) = (h, r) := by
  simp [encodeXferHeader, pXferHeader, List.append_assoc,
    pBE_be32 hc, pBE_be32 hs, pBE_be32 hd, pBE_be32 hdir, pBE_be32 he]

theorem pOpHeader_parts {v c s : Nat} {r : List Nat}
    (hv : v < 2 ^ 16) (hc : c < 2 ^ 16) (hs : s < 2 ^ 32) :
    pOpHeader (be16 v ++ (be16 c ++ (be32 s ++ r))) = (⟨v, c, s⟩, r) := by
  simp [pOpHeader, pBE_be16 hv, pBE_be16 hc, pBE_be32 hs]

theorem pInterface_parts (a b c d : Nat) (r : List Nat) :
    pInterface (a :: b :: c :: d :: r) = (⟨a, b, c, d⟩, r) := by
  simp [pInterface, pBE_byte]

theorem pXferHeader_parts {c sq di dr ep : Nat} {r : List Nat}
    (hc : c < 2 ^ 32) (hs : sq < 2 ^ 32) (hd : di < 2 ^ 32)
    (hdir : dr < 2 ^ 32) (he : ep < 2 ^ 32) :
    pXferHeader (be32 c ++ (be32 sq ++ (be32 di ++ (be32 dr ++
      (be32 ep ++ r))))) = (⟨c, sq, di, dr, ep⟩, r) := by
  simp [pXferHeader, pBE_be32 hc, pBE_be32 hs, pBE_be32 hd,
    pBE_be32 hdir, pBE_be32 he]

theorem length_encodeOpHeader (h : op_header_t) :
    (encodeOpHeader h).length = 8 := by
  simp [encodeOpHeader, be16, be32]

theorem length_encodeInterface (i : device_interface_t) :
    (encodeInterface i).length = 4 := rfl

theorem length_encodeDescriptor {d : device_descriptor_t}
    (hp : d.path.length = 256) (hb : d.bus_id.length = 32) :
    (encodeDescriptor d).length = 312 := by
  simp [encodeDescriptor, be16, be32, hp, hb]

theorem length_encodeXferHeader (h : xfer_header_t) :
    (encodeXferHeader h).length = 20 := by
  simp [encodeXferHeader, be32]

/-- Length of an encoded message, per shape. -/
theorem length_encode_reqDevlist (m : op_req_devlist_t) :
    (encode (.reqDevlist m)).length = 8 :=
  length_encodeOpHeader m.header

/-- The three header reads the decoder performs on an operation-stage
    buffer, in normalized form. -/
theorem op_buffer_reads (v c s : Nat) (r : List Nat) :
    (be16 v ++ (be16 c ++ (be32 s ++ r))).length = 8 + r.length ∧
    (be16 v ++ (be16 c ++ (be32 s ++ r))).take 2 = be16 v ∧
    ((be16 v ++ (be16 c ++ (be32 s ++ r))).drop 2).take 2 = be16 c := by
  refine ⟨by simp [be16, be32]; omega, take_append_of_length (length_be16 v), ?_⟩
  rw [drop_append_of_length (length_be16 v),
    take_append_of_length (length_be16 c)]

theorem decode_encode_reqDevlist {m : op_req_devlist_t} (r : List Nat)
    (h : Valid (.reqDevlist m)) :
    decode (encode (.reqDevlist m) ++ r) = .ok (.reqDevlist m) 8 := by
  obtain ⟨hv, hc, hs⟩ := h
  have hv16 : m.header.version < 2 ^ 16 := by rw [hv]; decide
  have hc16 : m.header.code < 2 ^ 16 := by rw [hc]; decide
  have hbs : encode (.reqDevlist m) ++ r =
      be16 m.header.version ++ (be16 m.header.code ++
        (be32 m.header.status ++ r)) := by
    simp [encode, encodeOpHeader]
  obtain ⟨hl, ht2, hd2⟩ :=
    op_buffer_reads m.header.version m.header.code m.header.status r
  rw [hbs]
  unfold decode
  rw [if_neg (by rw [hl]; omega), ht2, hd2, deBE_be16 hv16, deBE_be16 hc16]
  rw [if_pos hv, if_pos hc]
  rw [pOpHeader_parts hv16 hc16 hs]

theorem length_interfaces_flatten {l : List device_interface_t}
    (hl : l.length = 4) : ((l.map encodeInterface).flatten).length = 16 := by
  match l, hl with
  | [a, b, c, d], _ => simp [encodeInterface]

theorem decode_encode_repDevlist {m : op_rep_devlist_t} (r : List Nat)
    (h : Valid (.repDevlist m)) :
    decode (encode (.repDevlist m) ++ r) = .ok (.repDevlist m) 340 := by
  obtain ⟨⟨hv, hc, hs⟩, hcnt, hd, hi4, _⟩ := h
  have hv16 : m.header.version < 2 ^ 16 := by rw [hv]; decide
  have hc16 : m.header.code < 2 ^ 16 := by rw [hc]; decide
  have hbs : encode (.repDevlist m) ++ r =
      be16 m.header.version ++ (be16 m.header.code ++ (be32 m.header.status ++
        (be32 m.exported_count ++ (encodeDescriptor m.descriptor ++
          ((m.interfaces.map encodeInterface).flatten ++ r))))) := by
    simp [encode, encodeOpHeader]
  obtain ⟨hl, ht2, hd2⟩ :=
    op_buffer_reads m.header.version m.header.code m.header.status
      (be32 m.exported_count ++ (encodeDescriptor m.descriptor ++
        ((m.interfaces.map encodeInterface).flatten ++ r)))
  have hl340 : (be16 m.header.version ++ (be16 m.header.code ++
      (be32 m.header.status ++ (be32 m.exported_count ++
        (encodeDescriptor m.descriptor ++
          ((m.interfaces.map encodeInterface).flatten ++ r)))))).length =
      340 + r.length := by
    rw [hl]
    simp [be32, length_encodeDescriptor hd.1 hd.2.2.1,
      length_interfaces_flatten hi4]
    omega
  rw [hbs]
  unfold decode
  rw [if_neg (by rw [hl340]; omega), ht2, hd2, deBE_be16 hv16, deBE_be16 hc16]
  rw [if_pos hv, if_neg (by rw [hc]; decide), if_pos hc,
    if_neg (by rw [hl340]; omega)]
  simp only [pOpHeader_parts hv16 hc16 hs, pBE_be32 hcnt,
    pDescriptor_append hd, pInterfaces4_append hi4]

theorem decode_encode_reqImport {m : op_req_import_t} (r : List Nat)
    (h : Valid (.reqImport m)) :
    decode (encode (.reqImport m) ++ r) = .ok (.reqImport m) 40 := by
  obtain ⟨⟨hv, hc, hs⟩, hbid, _⟩ := h
  have hv16 : m.header.version < 2 ^ 16 := by rw [hv]; decide
  have hc16 : m.header.code < 2 ^ 16 := by rw [hc]; decide
  have hbs : encode (.reqImport m) ++ r =
      be16 m.header.version ++ (be16 m.header.code ++ (be32 m.header.status ++
        (m.bus_id ++ r))) := by
    simp [encode, encodeOpHeader]
  obtain ⟨hl, ht2, hd2⟩ :=
    op_buffer_reads m.header.version m.header.code m.header.status
      (m.bus_id ++ r)
  have hl40 : (be16 m.header.version ++ (be16 m.header.code ++
      (be32 m.header.status ++ (m.bus_id ++ r)))).length = 40 + r.length := by
    rw [hl]; simp [hbid]; omega
  rw [hbs]
  unfold decode
  rw [if_neg (by rw [hl40]; omega), ht2, hd2, deBE_be16 hv16, deBE_be16 hc16]
  rw [if_pos hv, if_neg (by rw [hc]; decide), if_neg (by rw [hc]; decide),
    if_pos hc, if_neg (by rw [hl40]; omega)]
  simp only [pOpHeader_parts hv16 hc16 hs, pBytes_append hbid]

theorem decode_encode_repImport {m : op_rep_import_t} (r : List Nat)
    (h : Valid (.repImport m)) :
    decode (encode (.repImport m) ++ r) = .ok (.repImport m) 320 := by
  obtain ⟨⟨hv, hc, hs⟩, hd⟩ := h
  have hv16 : m.header.version < 2 ^ 16 := by rw [hv]; decide
  have hc16 : m.header.code < 2 ^ 16 := by rw [hc]; decide
  have hbs : encode (.repImport m) ++ r =
      be16 m.header.version ++ (be16 m.header.code ++ (be32 m.header.status ++
        (encodeDescriptor m.descriptor ++ r))) := by
    simp [encode, encodeOpHeader]
  obtain ⟨hl, ht2, hd2⟩ :=
    op_buffer_reads m.header.version m.header.code m.header.status
      (encodeDescriptor m.descriptor ++ r)
  have hl320 : (be16 m.header.version ++ (be16 m.header.code ++
      (be32 m.header.status ++ (encodeDescriptor m.descriptor ++ r)))).length =
      320 + r.length := by
    rw [hl]; simp [length_encodeDescriptor hd.1 hd.2.2.1]; omega
  rw [hbs]
  unfold decode
  rw [if_neg (by rw [hl320]; omega), ht2, hd2, deBE_be16 hv16, deBE_be16 hc16]
  rw [if_pos hv, if_neg (by rw [hc]; decide), if_neg (by rw [hc]; decide),
    if_neg (by rw [hc]; decide), if_pos hc, if_neg (by rw [hl320]; omega)]
  simp only [pOpHeader_parts hv16 hc16 hs, pDescriptor_append hd]

/-- The reads the decoder performs on a transfer-stage buffer: its length,
    the stage-discrimination u16, and the command word. -/
theorem xfer_buffer_reads {c : Nat} (hc : c < 2 ^ 32) (t : List Nat) :
    (be32 c ++ t).length = 4 + t.length ∧
    deBE ((be32 c ++ t).take 2) = c / 2 ^ 16 ∧
    (be32 c ++ t).take 4 = be32 c := by
  refine ⟨by simp [be32]; omega, ?_, take_append_of_length (length_be32 c)⟩
  show deBE (List.take 2 ([c / 2 ^ 24 % 2 ^ 8, c / 2 ^ 16 % 2 ^ 8,
    c / 2 ^ 8 % 2 ^ 8, c % 2 ^ 8] ++ t)) = c / 2 ^ 16
  simp [deBE]
  omega

theorem decode_encode_cmdSubmit {m : cmd_submit_t} (r : List Nat)
    (h : Valid (.cmdSubmit m)) :
    decode (encode (.cmdSubmit m) ++ r) =
      .ok (.cmdSubmit m) (48 + m.payload.length) := by
  obtain ⟨⟨hcm, hsq, hdi, hdr, hep⟩, htf, htbl, hsf, hnop, hiv, hsu, _, hpl⟩ := h
  have hcm32 : m.header.command < 2 ^ 32 := by rw [hcm]; decide
  have hdr32 : m.header.direction < 2 ^ 32 := by
    rcases hdr with h' | h' <;> rw [h'] <;> decide
  have hbs : encode (.cmdSubmit m) ++ r =
      be32 m.header.command ++ (be32 m.header.seq_num ++
        (be32 m.header.device_id ++ (be32 m.header.direction ++
          (be32 m.header.endpoint ++ (be32 m.transfer_flags ++
            (be32 m.transfer_buffer_length ++ (be32 m.start_frame ++
              (be32 m.number_of_packets ++ (be32 m.interval ++
                (be64 m.setup ++ (m.payload ++ r))))))))))) := by
    simp [encode, encodeXferHeader]
  obtain ⟨hl, ht2, ht4⟩ := xfer_buffer_reads hcm32
    (be32 m.header.seq_num ++ (be32 m.header.device_id ++
      (be32 m.header.direction ++ (be32 m.header.endpoint ++
        (be32 m.transfer_flags ++ (be32 m.transfer_buffer_length ++
          (be32 m.start_frame ++ (be32 m.number_of_packets ++
            (be32 m.interval ++ (be64 m.setup ++ (m.payload ++ r)))))))))))
  have hlT : (be32 m.header.command ++ (be32 m.header.seq_num ++
      (be32 m.header.device_id ++ (be32 m.header.direction ++
        (be32 m.header.endpoint ++ (be32 m.transfer_flags ++
          (be32 m.transfer_buffer_length ++ (be32 m.start_frame ++
            (be32 m.number_of_packets ++ (be32 m.interval ++
              (be64 m.setup ++ (m.payload ++ r)))))))))))).length =
      48 + m.payload.length + r.length := by
    rw [hl]; simp [be32, be64]; omega
  rw [hbs]
  unfold decode
  rw [if_neg (by rw [hlT]; omega), ht2,
    if_neg (by rw [hcm]; decide), ht4, deBE_be32 hcm32]
  rw [if_pos hcm, if_neg (by rw [hlT]; omega)]
  simp only [pXferHeader_parts hcm32 hsq hdi hdr32 hep, pBE_be32 htf,
    pBE_be32 htbl, pBE_be32 hsf, pBE_be32 hnop, pBE_be32 hiv, pBE_be64 hsu]
  rw [if_neg (by rw [List.length_append, ← hpl]; omega),
    take_append_of_length hpl, ← hpl]

theorem decode_encode_retSubmit {m : ret_submit_t} (r : List Nat)
    (h : Valid (.retSubmit m)) :
    decode (encode (.retSubmit m) ++ r) =
      .ok (.retSubmit m) (48 + m.payload.length) := by
  obtain ⟨⟨hcm, hsq, hdi, hdr, hep⟩, hst, hal, hsf, hnop, hec, hpd, _, hpl⟩ := h
  have hcm32 : m.header.command < 2 ^ 32 := by rw [hcm]; decide
  have hdr32 : m.header.direction < 2 ^ 32 := by
    rcases hdr with h' | h' <;> rw [h'] <;> decide
  have hbs : encode (.retSubmit m) ++ r =
      be32 m.header.command ++ (be32 m.header.seq_num ++
        (be32 m.header.device_id ++ (be32 m.header.direction ++
          (be32 m.header.endpoint ++ (be32 m.status ++
            (be32 m.actual_length ++ (be32 m.start_frame ++
              (be32 m.number_of_packets ++ (be32 m.error_count ++
                (be64 m.padding ++ (m.payload ++ r))))))))))) := by
    simp [encode, encodeXferHeader]
  obtain ⟨hl, ht2, ht4⟩ := xfer_buffer_reads hcm32
    (be32 m.header.seq_num ++ (be32 m.header.device_id ++
      (be32 m.header.direction ++ (be32 m.header.endpoint ++
        (be32 m.status ++ (be32 m.actual_length ++
          (be32 m.start_frame ++ (be32 m.number_of_packets ++
            (be32 m.error_count ++ (be64 m.padding ++ (m.payload ++ r)))))))))))
  have hlT : (be32 m.header.command ++ (be32 m.header.seq_num ++
      (be32 m.header.device_id ++ (be32 m.header.direction ++
        (be32 m.header.endpoint ++ (be32 m.status ++
          (be32 m.actual_length ++ (be32 m.start_frame ++
            (be32 m.number_of_packets ++ (be32 m.error_count ++
              (be64 m.padding ++ (m.payload ++ r)))))))))))).length =
      48 + m.payload.length + r.length := by
    rw [hl]; simp [be32, be64]; omega
  rw [hbs]
  unfold decode
  rw [if_neg (by rw [hlT]; omega), ht2,
    if_neg (by rw [hcm]; decide), ht4, deBE_be32 hcm32]
  rw [if_neg (by rw [hcm]; decide), if_pos hcm, if_neg (by rw [hlT]; omega)]
  simp only [pXferHeader_parts hcm32 hsq hdi hdr32 hep, pBE_be32 hst,
    pBE_be32 hal, pBE_be32 hsf, pBE_be32 hnop, pBE_be32 hec, pBE_be64 hpd]
  rw [if_neg (by rw [List.length_append, ← hpl]; omega),
    take_append_of_length hpl, ← hpl]

theorem decode_encode_cmdUnlink {m : cmd_unlink_t} (r : List Nat)
    (h : Valid (.cmdUnlink m)) :
    decode (encode (.cmdUnlink m) ++ r) = .ok (.cmdUnlink m) 48 := by
  obtain ⟨⟨hcm, hsq, hdi, hdr, hep⟩, hus, hpd, _⟩ := h
  have hcm32 : m.header.command < 2 ^ 32 := by rw [hcm]; decide
  have hdr32 : m.header.direction < 2 ^ 32 := by
    rcases hdr with h' | h' <;> rw [h'] <;> decide
  have hbs : encode (.cmdUnlink m) ++ r =
      be32 m.header.command ++ (be32 m.header.seq_num ++
        (be32 m.header.device_id ++ (be32 m.header.direction ++
          (be32 m.header.endpoint ++ (be32 m.unlink_seqnum ++
            (m.padding ++ r)))))) := by
    simp [encode, encodeXferHeader]
  obtain ⟨hl, ht2, ht4⟩ := xfer_buffer_reads hcm32
    (be32 m.header.seq_num ++ (be32 m.header.device_id ++
      (be32 m.header.direction ++ (be32 m.header.endpoint ++
        (be32 m.unlink_seqnum ++ (m.padding ++ r))))))
  have hlT : (be32 m.header.command ++ (be32 m.header.seq_num ++
      (be32 m.header.device_id ++ (be32 m.header.direction ++
        (be32 m.header.endpoint ++ (be32 m.unlink_seqnum ++
          (m.padding ++ r))))))).length = 48 + r.length := by
    rw [hl]; simp [be32, hpd]; omega
  rw [hbs]
  unfold decode
  rw [if_neg (by rw [hlT]; omega), ht2,
    if_neg (by rw [hcm]; decide), ht4, deBE_be32 hcm32]
  rw [if_neg (by rw [hcm]; decide), if_neg (by rw [hcm]; decide),
    if_pos hcm, if_neg (by rw [hlT]; omega)]
  simp only [pXferHeader_parts hcm32 hsq hdi hdr32 hep, pBE_be32 hus,
    pBytes_append hpd]

theorem decode_encode_retUnlink {m : ret_unlink_t} (r : List Nat)
    (h : Valid (.retUnlink m)) :
    decode (encode (.retUnlink m) ++ r) = .ok (.retUnlink m) 48 := by
  obtain ⟨⟨hcm, hsq, hdi, hdr, hep⟩, hst, hpd, _⟩ := h
  have hcm32 : m.header.command < 2 ^ 32 := by rw [hcm]; decide
  have hdr32 : m.header.direction < 2 ^ 32 := by
    rcases hdr with h' | h' <;> rw [h'] <;> decide
  have hbs : encode (.retUnlink m) ++ r =
      be32 m.header.command ++ (be32 m.header.seq_num ++
        (be32 m.header.device_id ++ (be32 m.header.direction ++
          (be32 m.header.endpoint ++ (be32 m.status ++
            (m.padding ++ r)))))) := by
    simp [encode, encodeXferHeader]
  obtain ⟨hl, ht2, ht4⟩ := xfer_buffer_reads hcm32
    (be32 m.header.seq_num ++ (be32 m.header.device_id ++
      (be32 m.header.direction ++ (be32 m.header.endpoint ++
        (be32 m.status ++ (m.padding ++ r))))))
  have hlT : (be32 m.header.command ++ (be32 m.header.seq_num ++
      (be32 m.header.device_id ++ (be32 m.header.direction ++
        (be32 m.header.endpoint ++ (be32 m.status ++
          (m.padding ++ r))))))).length = 48 + r.length := by
    rw [hl]; simp [be32, hpd]; omega
  rw [hbs]
  unfold decode
  rw [if_neg (by rw [hlT]; omega), ht2,
    if_neg (by rw [hcm]; decide), ht4, deBE_be32 hcm32]
  rw [if_neg (by rw [hcm]; decide), if_neg (by rw [hcm]; decide),
    if_neg (by rw [hcm]; decide), if_pos hcm, if_neg (by rw [hlT]; omega)]
  simp only [pXferHeader_parts hcm32 hsq hdi hdr32 hep, pBE_be32 hst,
    pBytes_append hpd]

/- Lengths of encoded messages -/

theorem length_encode_repDevlist {m : op_rep_devlist_t}
    (h : Valid (.repDevlist m)) : (encode (.repDevlist m)).length = 340 := by
  obtain ⟨_, _, hd, hi4, _⟩ := h
  simp [encode, length_encodeOpHeader, length_encodeDescriptor hd.1 hd.2.2.1,
    length_interfaces_flatten hi4, be32]

theorem length_encode_reqImport {m : op_req_import_t}
    (h : Valid (.reqImport m)) : (encode (.reqImport m)).length = 40 := by
  obtain ⟨_, hbid, _⟩ := h
  simp [encode, length_encodeOpHeader, hbid]

theorem length_encode_repImport {m : op_rep_import_t}
    (h : Valid (.repImport m)) : (encode (.repImport m)).length = 320 := by
  obtain ⟨_, hd⟩ := h
  simp [encode, length_encodeOpHeader, length_encodeDescriptor hd.1 hd.2.2.1]

theorem length_encode_cmdSubmit (m : cmd_submit_t) :
    (encode (.cmdSubmit m)).length = 48 + m.payload.length := by
  simp [encode, length_encodeXferHeader, be32, be64]
  omega

theorem length_encode_retSubmit (m : ret_submit_t) :
    (encode (.retSubmit m)).length = 48 + m.payload.length := by
  simp [encode, length_encodeXferHeader, be32, be64]
  omega

theorem length_encode_cmdUnlink {m : cmd_unlink_t}
    (h : Valid (.cmdUnlink m)) : (encode (.cmdUnlink m)).length = 48 := by
  obtain ⟨_, _, hpd, _⟩ := h
  simp [encode, length_encodeXferHeader, be32, hpd]

theorem length_encode_retUnlink {m : ret_unlink_t}
    (h : Valid (.retUnlink m)) : (encode (.retUnlink m)).length = 48 := by
  obtain ⟨_, _, hpd, _⟩ := h
  simp [encode, length_encodeXferHeader, be32, hpd]

/-- Every valid message encodes to at least its 8-byte fixed prefix. -/
theorem length_encode_ge_8 {m : Message} (h : Valid m) :
    8 ≤ (encode m).length := by
  cases m with
  | reqDevlist m' => rw [length_encode_reqDevlist m']
  | repDevlist m' => rw [length_encode_repDevlist h]; omega
  | reqImport m' => rw [length_encode_reqImport h]; omega
  | repImport m' => rw [length_encode_repImport h]; omega
  | cmdSubmit m' => rw [length_encode_cmdSubmit m']; omega
  | retSubmit m' => rw [length_encode_retSubmit m']; omega
  | cmdUnlink m' => rw [length_encode_cmdUnlink h]; omega
  | retUnlink m' => rw [length_encode_retUnlink h]; omega

/- Reads on truncated buffers -/

theorem take_append_of_le_length {l r : List Nat} {n j : Nat}
    (h : l.length = n) (hj : n ≤ j) :
    (l ++ r).take j = l ++ r.take (j - n) := by
  rw [List.take_append_eq_append_take, List.take_of_length_le (by omega), h]

theorem op_take_reads (v c s : Nat) (t : List Nat) {k : Nat} (hk : 8 ≤ k) :
    ((be16 v ++ (be16 c ++ (be32 s ++ t))).take k).take 2 = be16 v ∧
    (((be16 v ++ (be16 c ++ (be32 s ++ t))).take k).drop 2).take 2 =
      be16 c := by
  constructor
  · rw [List.take_take, min_eq_left (by omega)]
    exact take_append_of_length (length_be16 v)
  · rw [List.drop_take, List.take_take, min_eq_left (by omega),
      drop_append_of_length (length_be16 v),
      take_append_of_length (length_be16 c)]

theorem xfer_take_reads {c : Nat} (hc : c < 2 ^ 32) (t : List Nat) {k : Nat}
    (hk : 8 ≤ k) :
    deBE (((be32 c ++ t).take k).take 2) = c / 2 ^ 16 ∧
    ((be32 c ++ t).take k).take 4 = be32 c := by
  obtain ⟨_, h2, h4⟩ := xfer_buffer_reads hc t
  constructor
  · rw [List.take_take, min_eq_left (by omega)]; exact h2
  · rw [List.take_take, min_eq_left (by omega)]; exact h4

/- Proper prefixes of encodings decode to NeedMoreBytes -/

theorem decode_take_reqDevlist {m : op_req_devlist_t} {k : Nat} (hk : k < 8) :
    decode ((encode (.reqDevlist m)).take k) = .needMoreBytes := by
  unfold decode
  rw [if_pos (by
    rw [List.length_take, length_encode_reqDevlist m]; omega)]

theorem decode_take_repDevlist {m : op_rep_devlist_t}
    (h : Valid (.repDevlist m)) {k : Nat} (hk : k < 340) :
    decode ((encode (.repDevlist m)).take k) = .needMoreBytes := by
  have hlen := length_encode_repDevlist h
  obtain ⟨⟨hv, hc, hs⟩, hcnt, hd, hi4, _⟩ := h
  have hv16 : m.header.version < 2 ^ 16 := by rw [hv]; decide
  have hc16 : m.header.code < 2 ^ 16 := by rw [hc]; decide
  by_cases h8 : k < 8
  · unfold decode
    rw [if_pos (by rw [List.length_take, hlen]; omega)]
  · push_neg at h8
    have hbs0 : encode (.repDevlist m) =
        be16 m.header.version ++ (be16 m.header.code ++
          (be32 m.header.status ++ (be32 m.exported_count ++
            (encodeDescriptor m.descriptor ++
              (m.interfaces.map encodeInterface).flatten)))) := by
      simp [encode, encodeOpHeader]
    obtain ⟨ht2, hd2⟩ := op_take_reads m.header.version m.header.code
      m.header.status (be32 m.exported_count ++ (encodeDescriptor m.descriptor
        ++ (m.interfaces.map encodeInterface).flatten)) h8
    rw [hbs0] at hlen
    rw [hbs0]
    unfold decode
    rw [if_neg (by rw [List.length_take, hlen]; omega), ht2, hd2,
      deBE_be16 hv16, deBE_be16 hc16]
    rw [if_pos hv, if_neg (by rw [hc]; decide), if_pos hc,
      if_pos (by rw [List.length_take, hlen]; omega)]

theorem decode_take_reqImport {m : op_req_import_t}
    (h : Valid (.reqImport m)) {k : Nat} (hk : k < 40) :
    decode ((encode (.reqImport m)).take k) = .needMoreBytes := by
  have hlen := length_encode_reqImport h
  obtain ⟨⟨hv, hc, hs⟩, hbid, _⟩ := h
  have hv16 : m.header.version < 2 ^ 16 := by rw [hv]; decide
  have hc16 : m.header.code < 2 ^ 16 := by rw [hc]; decide
  by_cases h8 : k < 8
  · unfold decode
    rw [if_pos (by rw [List.length_take, hlen]; omega)]
  · push_neg at h8
    have hbs0 : encode (.reqImport m) =
        be16 m.header.version ++ (be16 m.header.code ++
          (be32 m.header.status ++ m.bus_id)) := by
      simp [encode, encodeOpHeader]
    obtain ⟨ht2, hd2⟩ := op_take_reads m.header.version m.header.code
      m.header.status m.bus_id h8
    rw [hbs0] at hlen
    rw [hbs0]
    unfold decode
    rw [if_neg (by rw [List.length_take, hlen]; omega), ht2, hd2,
      deBE_be16 hv16, deBE_be16 hc16]
    rw [if_pos hv, if_neg (by rw [hc]; decide), if_neg (by rw [hc]; decide),
      if_pos hc, if_pos (by rw [List.length_take, hlen]; omega)]

theorem decode_take_repImport {m : op_rep_import_t}
    (h : Valid (.repImport m)) {k : Nat} (hk : k < 320) :
    decode ((encode (.repImport m)).take k) = .needMoreBytes := by
  have hlen := length_encode_repImport h
  obtain ⟨⟨hv, hc, hs⟩, hd⟩ := h
  have hv16 : m.header.version < 2 ^ 16 := by rw [hv]; decide
  have hc16 : m.header.code < 2 ^ 16 := by rw [hc]; decide
  by_cases h8 : k < 8
  · unfold decode
    rw [if_pos (by rw [List.length_take, hlen]; omega)]
  · push_neg at h8
    have hbs0 : encode (.repImport m) =
        be16 m.header.version ++ (be16 m.header.code ++
          (be32 m.header.status ++ encodeDescriptor m.descriptor)) := by
      simp [encode, encodeOpHeader]
    obtain ⟨ht2, hd2⟩ := op_take_reads m.header.version m.header.code
      m.header.status (encodeDescriptor m.descriptor) h8
    rw [hbs0] at hlen
    rw [hbs0]
    unfold decode
    rw [if_neg (by rw [List.length_take, hlen]; omega), ht2, hd2,
      deBE_be16 hv16, deBE_be16 hc16]
    rw [if_pos hv, if_neg (by rw [hc]; decide), if_neg (by rw [hc]; decide),
      if_neg (by rw [hc]; decide), if_pos hc,
      if_pos (by rw [List.length_take, hlen]; omega)]

theorem decode_take_cmdSubmit {m : cmd_submit_t}
    (h : Valid (.cmdSubmit m)) {k : Nat} (hk : k < 48 + m.payload.length) :
    decode ((encode (.cmdSubmit m)).take k) = .needMoreBytes := by
  have hlen := length_encode_cmdSubmit m
  obtain ⟨⟨hcm, hsq, hdi, hdr, hep⟩, htf, htbl, hsf, hnop, hiv, hsu, _, hpl⟩ := h
  have hcm32 : m.header.command < 2 ^ 32 := by rw [hcm]; decide
  have hdr32 : m.header.direction < 2 ^ 32 := by
    rcases hdr with h' | h' <;> rw [h'] <;> decide
  have hbs0 : encode (.cmdSubmit m) =
      be32 m.header.command ++ (be32 m.header.seq_num ++
        (be32 m.header.device_id ++ (be32 m.header.direction ++
          (be32 m.header.endpoint ++ (be32 m.transfer_flags ++
            (be32 m.transfer_buffer_length ++ (be32 m.start_frame ++
              (be32 m.number_of_packets ++ (be32 m.interval ++
                (be64 m.setup ++ m.payload)))))))))) := by
    simp [encode, encodeXferHeader]
  by_cases h8 : k < 8
  · unfold decode
    rw [if_pos (by rw [List.length_take, hlen]; omega)]
  · push_neg at h8
    rw [hbs0] at hlen
    rw [hbs0]
    by_cases h48 : k < 48
    · obtain ⟨ht2, ht4⟩ := xfer_take_reads hcm32
        (be32 m.header.seq_num ++ (be32 m.header.device_id ++
          (be32 m.header.direction ++ (be32 m.header.endpoint ++
            (be32 m.transfer_flags ++ (be32 m.transfer_buffer_length ++
              (be32 m.start_frame ++ (be32 m.number_of_packets ++
                (be32 m.interval ++ (be64 m.setup ++ m.payload)))))))))) h8
      unfold decode
      rw [if_neg (by rw [List.length_take, hlen]; omega), ht2,
        if_neg (by rw [hcm]; decide), ht4, deBE_be32 hcm32]
      rw [if_pos hcm, if_pos (by rw [List.length_take, hlen]; omega)]
    · push_neg at h48
      have hsplit : (be32 m.header.command ++ (be32 m.header.seq_num ++
          (be32 m.header.device_id ++ (be32 m.header.direction ++
            (be32 m.header.endpoint ++ (be32 m.transfer_flags ++
              (be32 m.transfer_buffer_length ++ (be32 m.start_frame ++
                (be32 m.number_of_packets ++ (be32 m.interval ++
                  (be64 m.setup ++ m.payload))))))))))).take k =
          be32 m.header.command ++ (be32 m.header.seq_num ++
            (be32 m.header.device_id ++ (be32 m.header.direction ++
              (be32 m.header.endpoint ++ (be32 m.transfer_flags ++
                (be32 m.transfer_buffer_length ++ (be32 m.start_frame ++
                  (be32 m.number_of_packets ++ (be32 m.interval ++
                    (be64 m.setup ++ m.payload.take (k - 48))))))))))) := by
        rw [take_append_of_le_length (length_be32 _) (by omega),
          take_append_of_le_length (length_be32 _) (by omega),
          take_append_of_le_length (length_be32 _) (by omega),
          take_append_of_le_length (length_be32 _) (by omega),
          take_append_of_le_length (length_be32 _) (by omega),
          take_append_of_le_length (length_be32 _) (by omega),
          take_append_of_le_length (length_be32 _) (by omega),
          take_append_of_le_length (length_be32 _) (by omega),
          take_append_of_le_length (length_be32 _) (by omega),
          take_append_of_le_length (length_be32 _) (by omega),
          take_append_of_le_length (length_be64 _) (by omega)]
        simp only [Nat.sub_sub]
      rw [hsplit]
      have hlT : (be32 m.header.command ++ (be32 m.header.seq_num ++
          (be32 m.header.device_id ++ (be32 m.header.direction ++
            (be32 m.header.endpoint ++ (be32 m.transfer_flags ++
              (be32 m.transfer_buffer_length ++ (be32 m.start_frame ++
                (be32 m.number_of_packets ++ (be32 m.interval ++
                  (be64 m.setup ++
                    m.payload.take (k - 48)))))))))))).length =
          48 + ((k - 48) ⊓ m.payload.length) := by
        simp [be32, be64, List.length_take]
        omega
      obtain ⟨_, ht2, ht4⟩ := xfer_buffer_reads hcm32
        (be32 m.header.seq_num ++ (be32 m.header.device_id ++
          (be32 m.header.direction ++ (be32 m.header.endpoint ++
            (be32 m.transfer_flags ++ (be32 m.transfer_buffer_length ++
              (be32 m.start_frame ++ (be32 m.number_of_packets ++
                (be32 m.interval ++ (be64 m.setup ++
                  m.payload.take (k - 48)))))))))))
      unfold decode
      rw [if_neg (by rw [hlT]; omega), ht2, if_neg (by rw [hcm]; decide),
        ht4, deBE_be32 hcm32]
      rw [if_pos hcm, if_neg (by rw [hlT]; omega)]
      simp only [pXferHeader_parts hcm32 hsq hdi hdr32 hep, pBE_be32 htf,
        pBE_be32 htbl, pBE_be32 hsf, pBE_be32 hnop, pBE_be32 hiv,
        pBE_be64 hsu]
      rw [if_pos (by rw [List.length_take, ← hpl]; omega)]

theorem decode_take_retSubmit {m : ret_submit_t}
    (h : Valid (.retSubmit m)) {k : Nat} (hk : k < 48 + m.payload.length) :
    decode ((encode (.retSubmit m)).take k) = .needMoreBytes := by
  have hlen := length_encode_retSubmit m
  obtain ⟨⟨hcm, hsq, hdi, hdr, hep⟩, hst, hal, hsf, hnop, hec, hpd, _, hpl⟩ := h
  have hcm32 : m.header.command < 2 ^ 32 := by rw [hcm]; decide
  have hdr32 : m.header.direction < 2 ^ 32 := by
    rcases hdr with h' | h' <;> rw [h'] <;> decide
  have hbs0 : encode (.retSubmit m) =
      be32 m.header.command ++ (be32 m.header.seq_num ++
        (be32 m.header.device_id ++ (be32 m.header.direction ++
          (be32 m.header.endpoint ++ (be32 m.status ++
            (be32 m.actual_length ++ (be32 m.start_frame ++
              (be32 m.number_of_packets ++ (be32 m.error_count ++
                (be64 m.padding ++ m.payload)))))))))) := by
    simp [encode, encodeXferHeader]
  by_cases h8 : k < 8
  · unfold decode
    rw [if_pos (by rw [List.length_take, hlen]; omega)]
  · push_neg at h8
    rw [hbs0] at hlen
    rw [hbs0]
    by_cases h48 : k < 48
    · obtain ⟨ht2, ht4⟩ := xfer_take_reads hcm32
        (be32 m.header.seq_num ++ (be32 m.header.device_id ++
          (be32 m.header.direction ++ (be32 m.header.endpoint ++
            (be32 m.status ++ (be32 m.actual_length ++
              (be32 m.start_frame ++ (be32 m.number_of_packets ++
                (be32 m.error_count ++ (be64 m.padding ++
                  m.payload)))))))))) h8
      unfold decode
      rw [if_neg (by rw [List.length_take, hlen]; omega), ht2,
        if_neg (by rw [hcm]; decide), ht4, deBE_be32 hcm32]
      rw [if_neg (by rw [hcm]; decide), if_pos hcm,
        if_pos (by rw [List.length_take, hlen]; omega)]
    · push_neg at h48
      have hsplit : (be32 m.header.command ++ (be32 m.header.seq_num ++
          (be32 m.header.device_id ++ (be32 m.header.direction ++
            (be32 m.header.endpoint ++ (be32 m.status ++
              (be32 m.actual_length ++ (be32 m.start_frame ++
                (be32 m.number_of_packets ++ (be32 m.error_count ++
                  (be64 m.padding ++ m.payload))))))))))).take k =
          be32 m.header.command ++ (be32 m.header.seq_num ++
            (be32 m.header.device_id ++ (be32 m.header.direction ++
              (be32 m.header.endpoint ++ (be32 m.status ++
                (be32 m.actual_length ++ (be32 m.start_frame ++
                  (be32 m.number_of_packets ++ (be32 m.error_count ++
                    (be64 m.padding ++ m.payload.take (k - 48))))))))))) := by
        rw [take_append_of_le_length (length_be32 _) (by omega),
          take_append_of_le_length (length_be32 _) (by omega),
          take_append_of_le_length (length_be32 _) (by omega),
          take_append_of_le_length (length_be32 _) (by omega),
          take_append_of_le_length (length_be32 _) (by omega),
          take_append_of_le_length (length_be32 _) (by omega),
          take_append_of_le_length (length_be32 _) (by omega),
          take_append_of_le_length (length_be32 _) (by omega),
          take_append_of_le_length (length_be32 _) (by omega),
          take_append_of_le_length (length_be32 _) (by omega),
          take_append_of_le_length (length_be64 _) (by omega)]
        simp only [Nat.sub_sub]
      rw [hsplit]
      have hlT : (be32 m.header.command ++ (be32 m.header.seq_num ++
          (be32 m.header.device_id ++ (be32 m.header.direction ++
            (be32 m.header.endpoint ++ (be32 m.status ++
              (be32 m.actual_length ++ (be32 m.start_frame ++
                (be32 m.number_of_packets ++ (be32 m.error_count ++
                  (be64 m.padding ++
                    m.payload.take (k - 48)))))))))))).length =
          48 + ((k - 48) ⊓ m.payload.length) := by
        simp [be32, be64, List.length_take]
        omega
      obtain ⟨_, ht2, ht4⟩ := xfer_buffer_reads hcm32
        (be32 m.header.seq_num ++ (be32 m.header.device_id ++
          (be32 m.header.direction ++ (be32 m.header.endpoint ++
            (be32 m.status ++ (be32 m.actual_length ++
              (be32 m.start_frame ++ (be32 m.number_of_packets ++
                (be32 m.error_count ++ (be64 m.padding ++
                  m.payload.take (k - 48)))))))))))
      unfold decode
      rw [if_neg (by rw [hlT]; omega), ht2, if_neg (by rw [hcm]; decide),
        ht4, deBE_be32 hcm32]
      rw [if_neg (by rw [hcm]; decide), if_pos hcm,
        if_neg (by rw [hlT]; omega)]
      simp only [pXferHeader_parts hcm32 hsq hdi hdr32 hep, pBE_be32 hst,
        pBE_be32 hal, pBE_be32 hsf, pBE_be32 hnop, pBE_be32 hec,
        pBE_be64 hpd]
      rw [if_pos (by rw [List.length_take, ← hpl]; omega)]

theorem decode_take_cmdUnlink {m : cmd_unlink_t}
    (h : Valid (.cmdUnlink m)) {k : Nat} (hk : k < 48) :
    decode ((encode (.cmdUnlink m)).take k) = .needMoreBytes := by
  have hlen := length_encode_cmdUnlink h
  obtain ⟨⟨hcm, hsq, hdi, hdr, hep⟩, hus, hpd, _⟩ := h
  have hcm32 : m.header.command < 2 ^ 32 := by rw [hcm]; decide
  by_cases h8 : k < 8
  · unfold decode
    rw [if_pos (by rw [List.length_take, hlen]; omega)]
  · push_neg at h8
    have hbs0 : encode (.cmdUnlink m) =
        be32 m.header.command ++ (be32 m.header.seq_num ++
          (be32 m.header.device_id ++ (be32 m.header.direction ++
            (be32 m.header.endpoint ++ (be32 m.unlink_seqnum ++
              m.padding))))) := by
      simp [encode, encodeXferHeader]
    rw [hbs0] at hlen
    rw [hbs0]
    obtain ⟨ht2, ht4⟩ := xfer_take_reads hcm32
      (be32 m.header.seq_num ++ (be32 m.header.device_id ++
        (be32 m.header.direction ++ (be32 m.header.endpoint ++
          (be32 m.unlink_seqnum ++ m.padding))))) h8
    unfold decode
    rw [if_neg (by rw [List.length_take, hlen]; omega), ht2,
      if_neg (by rw [hcm]; decide), ht4, deBE_be32 hcm32]
    rw [if_neg (by rw [hcm]; decide), if_neg (by rw [hcm]; decide),
      if_pos hcm, if_pos (by rw [List.length_take, hlen]; omega)]

theorem decode_take_retUnlink {m : ret_unlink_t}
    (h : Valid (.retUnlink m)) {k : Nat} (hk : k < 48) :
    decode ((encode (.retUnlink m)).take k) = .needMoreBytes := by
  have hlen := length_encode_retUnlink h
  obtain ⟨⟨hcm, hsq, hdi, hdr, hep⟩, hst, hpd, _⟩ := h
  have hcm32 : m.header.command < 2 ^ 32 := by rw [hcm]; decide
  by_cases h8 : k < 8
  · unfold decode
    rw [if_pos (by rw [List.length_take, hlen]; omega)]
  · push_neg at h8
    have hbs0 : encode (.retUnlink m) =
        be32 m.header.command ++ (be32 m.header.seq_num ++
          (be32 m.header.device_id ++ (be32 m.header.direction ++
            (be32 m.header.endpoint ++ (be32 m.status ++
              m.padding))))) := by
      simp [encode, encodeXferHeader]
    rw [hbs0] at hlen
    rw [hbs0]
    obtain ⟨ht2, ht4⟩ := xfer_take_reads hcm32
      (be32 m.header.seq_num ++ (be32 m.header.device_id ++
        (be32 m.header.direction ++ (be32 m.header.endpoint ++
          (be32 m.status ++ m.padding))))) h8
    unfold decode
    rw [if_neg (by rw [List.length_take, hlen]; omega), ht2,
      if_neg (by rw [hcm]; decide), ht4, deBE_be32 hcm32]
    rw [if_neg (by rw [hcm]; decide), if_neg (by rw [hcm]; decide),
      if_neg (by rw [hcm]; decide), if_pos hcm,
      if_pos (by rw [List.length_take, hlen]; omega)]

/-- Decoding an encoded valid message followed by any trailing bytes yields
    the message and consumes exactly its encoding. -/
theorem decode_encode_append {m : Message} (h : Valid m) (r : List Nat) :
    decode (encode m ++ r) = .ok m (encode m).length := by
  cases m with
  | reqDevlist m' =>
      rw [decode_encode_reqDevlist r h, length_encode_reqDevlist m']
  | repDevlist m' =>
      rw [decode_encode_repDevlist r h, length_encode_repDevlist h]
  | reqImport m' =>
      rw [decode_encode_reqImport r h, length_encode_reqImport h]
  | repImport m' =>
      rw [decode_encode_repImport r h, length_encode_repImport h]
  | cmdSubmit m' =>
      rw [decode_encode_cmdSubmit r h, length_encode_cmdSubmit m']
  | retSubmit m' =>
      rw [decode_encode_retSubmit r h, length_encode_retSubmit m']
  | cmdUnlink m' =>
      rw [decode_encode_cmdUnlink r h, length_encode_cmdUnlink h]
  | retUnlink m' =>
      rw [decode_encode_retUnlink r h, length_encode_retUnlink h]

/-- On every proper prefix of an encoded valid message the decoder asks for
    more bytes. -/
theorem decode_take_of_lt {m : Message} (h : Valid m) {k : Nat}
    (hk : k < (encode m).length) :
    decode ((encode m).take k) = .needMoreBytes := by
  cases m with
  | reqDevlist m' =>
      exact decode_take_reqDevlist (by
        rw [length_encode_reqDevlist m'] at hk; omega)
  | repDevlist m' =>
      exact decode_take_repDevlist h (by
        rw [length_encode_repDevlist h] at hk; omega)
  | reqImport m' =>
      exact decode_take_reqImport h (by
        rw [length_encode_reqImport h] at hk; omega)
  | repImport m' =>
      exact decode_take_repImport h (by
        rw [length_encode_repImport h] at hk; omega)
  | cmdSubmit m' =>
      exact decode_take_cmdSubmit h (by
        rw [length_encode_cmdSubmit m'] at hk; omega)
  | retSubmit m' =>
      exact decode_take_retSubmit h (by
        rw [length_encode_retSubmit m'] at hk; omega)
  | cmdUnlink m' =>
      exact decode_take_cmdUnlink h (by
        rw [length_encode_cmdUnlink h] at hk; omega)
  | retUnlink m' =>
      exact decode_take_retUnlink h (by
        rw [length_encode_retUnlink h] at hk; omega)

/- ------------------------------------------------------------------ -/
/- Incremental decoding (Wire Codec driven by the reactor)            -/
/- ------------------------------------------------------------------ -/

/-- Modelled from the spec: the reactor "repeatedly invoke[s] the Wire
    Codec until it reports NeedMoreBytes" (design document, section 4.4).
    `drainFuel` extracts as many complete messages as the buffer holds;
    the fuel argument only bounds recursion and is irrelevant once it is at
    least the buffer length. -/
def drainFuel : Nat → List Nat → List Message × List Nat
  | 0, bs => ([], bs)
  | fuel + 1, bs =>
    match decode bs with
    | .ok m k =>
        if 0 < k ∧ k ≤ bs.length then
          let p := drainFuel fuel (bs.drop k)
          (m :: p.1, p.2)
        else ([], bs)
    | _ => ([], bs)

/-- Greedy extraction of all complete messages from a buffer. -/
def drain (bs : List Nat) : List Message × List Nat :=
  drainFuel bs.length bs

/-- Feeding one chunk into the codec buffer: append, then drain.  Returns
    the remaining buffer and the decoded messages, in order. -/
def feedChunk (buf chunk : List Nat) : List Nat × List Message :=
  let p := drain (buf ++ chunk)
  (p.2, p.1)

/-- Feeding a sequence of chunks, collecting all decoded messages. -/
def feedMany (buf : List Nat) : List (List Nat) → List Nat × List Message
  | [] => (buf, [])
  | c :: cs =>
      let p := feedChunk buf c
      let q := feedMany p.1 cs
      (q.1, p.2 ++ q.2)

theorem drainFuel_congr : ∀ (f1 f2 : Nat) (bs : List Nat),
    bs.length ≤ f1 → bs.length ≤ f2 → drainFuel f1 bs = drainFuel f2 bs := by
  intro f1
  induction f1 with
  | zero =>
    intro f2 bs h1 _
    have hbs : bs = [] := List.eq_nil_of_length_eq_zero (by omega)
    subst hbs
    cases f2 with
    | zero => rfl
    | succ f2' => simp [drainFuel, decode]
  | succ f ih =>
    intro f2 bs h1 h2
    cases f2 with
    | zero =>
      have hbs : bs = [] := List.eq_nil_of_length_eq_zero (by omega)
      subst hbs
      simp [drainFuel, decode]
    | succ f2' =>
      simp only [drainFuel]
      cases hdec : decode bs with
      | ok m k =>
        by_cases hg : 0 < k ∧ k ≤ bs.length
        · simp only [if_pos hg]
          rw [ih f2' (bs.drop k) (by simp [List.length_drop]; omega)
            (by simp [List.length_drop]; omega)]
        · simp only [if_neg hg]
      | needMoreBytes => rfl
      | malformed => rfl

theorem drain_ok {bs : List Nat} {m : Message} {k : Nat}
    (hdec : decode bs = .ok m k) (hk0 : 0 < k) (hkl : k ≤ bs.length) :
    drain bs = (m :: (drain (bs.drop k)).1, (drain (bs.drop k)).2) := by
  unfold drain
  cases hl : bs.length with
  | zero => omega
  | succ n =>
    simp only [drainFuel, hdec, if_pos (And.intro hk0 hkl)]
    rw [drainFuel_congr n (bs.drop k).length (bs.drop k)
      (by simp [List.length_drop]; omega) (le_refl _)]

theorem drain_needMore {bs : List Nat} (hdec : decode bs = .needMoreBytes) :
    drain bs = ([], bs) := by
  unfold drain
  cases hl : bs.length with
  | zero => rfl
  | succ n => simp only [drainFuel, hdec]

theorem drain_nil : drain [] = ([], []) := rfl

/-- Draining a whole stream of encoded valid messages followed by any
    residue extracts precisely those messages, then continues on the
    residue. -/
theorem drain_encodeStream : ∀ (ms : List Message), (∀ m ∈ ms, Valid m) →
    ∀ rest : List Nat,
    drain ((ms.map encode).flatten ++ rest) =
      ((ms ++ (drain rest).1, (drain rest).2)) := by
  intro ms
  induction ms with
  | nil => intro _ rest; simp
  | cons m ms' ih =>
    intro hv rest
    have hm : Valid m := hv m (by simp)
    have hms' : ∀ m' ∈ ms', Valid m' := fun m' hm' => hv m' (by simp [hm'])
    have hflat : ((m :: ms').map encode).flatten ++ rest =
        encode m ++ ((ms'.map encode).flatten ++ rest) := by
      simp
    rw [hflat]
    have hdec := decode_encode_append hm ((ms'.map encode).flatten ++ rest)
    have h8 := length_encode_ge_8 hm
    rw [drain_ok hdec (by omega) (by simp),
      drop_append_of_length rfl, ih hms' rest]
    simp

theorem feedMany_append (buf : List Nat) (cs1 cs2 : List (List Nat)) :
    feedMany buf (cs1 ++ cs2) =
      ((feedMany (feedMany buf cs1).1 cs2).1,
        (feedMany buf cs1).2 ++ (feedMany (feedMany buf cs1).1 cs2).2) := by
  induction cs1 generalizing buf with
  | nil => simp [feedMany]
  | cons c cs ih =>
    simp only [List.cons_append, feedMany]
    simp only [List.append_eq, ih]
    simp [List.append_assoc]

/-- Feeding the bytes of one encoded message one at a time, starting from a
    buffered proper prefix of it, ends with an empty buffer and exactly that
    message decoded. -/
theorem feedOnes_aux {m : Message} (hm : Valid m) :
    ∀ (n i : Nat), i + n = (encode m).length → i < (encode m).length →
    feedMany ((encode m).take i)
      (((encode m).drop i).map (fun b => [b])) = ([], [m]) := by
  intro n
  induction n with
  | zero => intro i h1 h2; omega
  | succ n' ih =>
    intro i h1 h2
    rw [List.drop_eq_getElem_cons h2]
    simp only [List.map_cons, feedMany, feedChunk]
    have htake : (encode m).take i ++ [(encode m)[i]] =
        (encode m).take (i + 1) := by
      rw [List.take_succ]
      simp [List.getElem?_eq_getElem h2]
    rw [htake]
    by_cases hend : i + 1 = (encode m).length
    · have htake1 : (encode m).take (i + 1) = encode m :=
        List.take_of_length_le (by omega)
      have hdec : decode (encode m) = .ok m (encode m).length := by
        have := decode_encode_append hm []
        rwa [List.append_nil] at this
      have hdrain : drain (encode m) = ([m], []) := by
        rw [drain_ok hdec (by have := length_encode_ge_8 hm; omega)
          (le_refl _)]
        simp [drain_nil]
      have hdropnil : (encode m).drop (i + 1) = [] := by
        apply List.drop_eq_nil_of_le
        omega
      rw [htake1, hdrain, hdropnil]
      simp [feedMany]
    · have hlt : i + 1 < (encode m).length := by omega
      have hnm := decode_take_of_lt hm hlt
      rw [drain_needMore hnm]
      have := ih (i + 1) (by omega) hlt
      simp only at this
      rw [this]
      rfl

/-- Feeding one encoded valid message byte by byte from an empty buffer
    decodes exactly that message. -/
theorem feedOnes_encode {m : Message} (hm : Valid m) :
    feedMany [] ((encode m).map (fun b => [b])) = ([], [m]) := by
  have h8 := length_encode_ge_8 hm
  have := feedOnes_aux hm (encode m).length 0 (by omega) (by omega)
  simpa using this

/-- Feeding a whole valid stream byte by byte decodes exactly its
    messages. -/
theorem feedOnes_stream : ∀ (ms : List Message), (∀ m ∈ ms, Valid m) →
    feedMany [] (((ms.map encode).flatten).map (fun b => [b])) = ([], ms) := by
  intro ms
  induction ms with
  | nil => simp [feedMany]
  | cons m ms' ih =>
    intro hv
    have hm : Valid m := hv m (by simp)
    have hms' : ∀ m' ∈ ms', Valid m' := fun m' hm' => hv m' (by simp [hm'])
    have hflat : (((m :: ms').map encode).flatten).map (fun b => [b]) =
        ((encode m).map (fun b => [b])) ++
          (((ms'.map encode).flatten).map (fun b => [b])) := by
      simp
    rw [hflat, feedMany_append, feedOnes_encode hm, ih hms']
    rfl

/-- Feeding a whole valid stream as one single chunk decodes exactly its
    messages. -/
theorem feedChunk_stream (ms : List Message) (hv : ∀ m ∈ ms, Valid m) :
    feedMany [] [(ms.map encode).flatten] = ([], ms) := by
  simp only [feedMany, feedChunk, List.nil_append]
  have := drain_encodeStream ms hv []
  rw [List.append_nil] at this
  rw [this]
  simp [drain_nil, feedMany]

/-- A boundary-value witness message: `CMD_SUBMIT`, IN direction (payload
    absent from the request), maximum `transfer_buffer_length`. -/
def submitWitnessMsg : Message :=
  .cmdSubmit ⟨⟨CMD_SUBMIT, 7, 2, DIR_IN, 0x81⟩, 0, 4294967295, 0, 0, 0, 0, []⟩

/-- A small `CMD_UNLINK` witness message. -/
def unlinkWitnessMsg : Message :=
  .cmdUnlink ⟨⟨CMD_UNLINK, 8, 2, DIR_OUT, 0⟩, 7, List.replicate 24 0⟩

/-- A header-only `OP_REQ_DEVLIST` witness message. -/
def devlistWitnessMsg : Message :=
  .reqDevlist ⟨⟨VERSION, OP_REQ_DEVLIST, 0⟩⟩

/-- Claim C1: for every wire message shape and arbitrary valid field values
    (including zero-length payload and maximum `transfer_buffer_length`),
    decoding the encoding of a message yields the original message with all
    of its bytes consumed: `decode (encode m) = ok m |encode m|`. -/
theorem C1_decode_encode_roundtrip (m : Message) (h : Valid m) :
    decode (encode m) = .ok m (encode m).length := by
  have := decode_encode_append h []
  rwa [List.append_nil] at this

/-- Witness for C1 at a boundary value: an IN-direction `CMD_SUBMIT` with
    zero-length payload and maximum `transfer_buffer_length`. -/
theorem C1_decode_encode_roundtrip_witness :
    Valid submitWitnessMsg ∧
    decode (encode submitWitnessMsg) =
      .ok submitWitnessMsg (encode submitWitnessMsg).length :=
  ⟨by decide, C1_decode_encode_roundtrip submitWitnessMsg (by decide)⟩

/-- Claim C2: feeding a valid byte stream of wire messages to the codec one
    byte at a time produces the same decoded message sequence as feeding it
    as a single chunk; and on every proper prefix of a message's encoding
    (fixed header or variable payload still incomplete) the codec reports
    `NeedMoreBytes`. -/
theorem C2_partial_delivery :
    (∀ (ms : List Message), (∀ m ∈ ms, Valid m) →
      (feedMany [] (((ms.map encode).flatten).map (fun b => [b]))).2 =
        (feedMany [] [(ms.map encode).flatten]).2) ∧
    (∀ (m : Message), Valid m → ∀ k : Nat, k < (encode m).length →
      decode ((encode m).take k) = .needMoreBytes) := by
  constructor
  · intro ms hv
    rw [feedOnes_stream ms hv, feedChunk_stream ms hv]
  · intro m hm k hk
    exact decode_take_of_lt hm hk

/-- Witness for C2: a concrete two-message stream fed byte-wise and as one
    chunk, and a concrete truncated buffer. -/
theorem C2_partial_delivery_witness :
    (feedMany [] ((([devlistWitnessMsg, unlinkWitnessMsg].map
        encode).flatten).map (fun b => [b]))).2 =
      (feedMany []
        [([devlistWitnessMsg, unlinkWitnessMsg].map encode).flatten]).2 ∧
    decode ((encode unlinkWitnessMsg).take 30) = .needMoreBytes :=
  ⟨C2_partial_delivery.1 [devlistWitnessMsg, unlinkWitnessMsg] (by decide),
   C2_partial_delivery.2 unlinkWitnessMsg (by decide) 30 (by decide)⟩

end usbip

/- ------------------------------------------------------------------ -/
/- Session state machine, Provider and Transfer Executor              -/
/- ------------------------------------------------------------------ -/

namespace session

open usbip

/-- Modelled from the spec: per-connection protocol stage
    (design document, section 4.3): `Negotiating → Attached → Closed`. -/
inductive Stage where
  | negotiating
  | attached (bus : List Nat)
  | closed
  deriving DecidableEq, Repr

/-- Modelled from the spec: a `PendingUrb` record (section 3), created when
    a CMD_SUBMIT is accepted. -/
structure PendingUrb where
  seq_num : Nat
  direction : Nat
  endpoint : Nat
  expected_length : Nat
  deriving DecidableEq, Repr

/-- Modelled from the spec: a completion event in the Transfer Executor's
    completion channel, carrying `(status, actual_length, payload)`
    (section 4.2), keyed by the submission's `seq_num`. -/
structure Completion where
  seq_num : Nat
  status : Nat
  actual_length : Nat
  payload : List Nat
  deriving DecidableEq, Repr

/-- Modelled from the spec: the state of one Session (section 3). -/
structure SessionSt where
  stage : Stage
  pending : List PendingUrb
  deriving DecidableEq, Repr

/-- Modelled from the spec: the session engine's state — the Provider's
    registry of exported `bus_id`s, the per-session states, the hardware
    transfers accepted but not yet executed, and the thread-safe completion
    channel drained by the reactor (sections 4.2–4.5, 5).  The session
    layer, Provider and Transfer Executor are not implemented in the
    repository (section 9); `usbip::Provider` is an empty class. -/
structure Sys where
  registered : List (List Nat)
  sessions : List (Nat × SessionSt)
  hwPending : List Nat
  completions : List Completion
  deriving DecidableEq, Repr

/-- Replace the state of session `sid`. -/
def updateSession (l : List (Nat × SessionSt)) (sid : Nat)
    (st' : SessionSt) : List (Nat × SessionSt) :=
  l.map (fun p => if p.1 = sid then (p.1, st') else p)

/-- Modelled from the spec: processing `OP_REQ_IMPORT` (section 4.3): with
    a known, unattached `bus_id`, acquire exclusive attach and reply status
    OK; with an unknown `bus_id` or an already-attached device, reply
    status ERROR and remain `Negotiating`. -/
def import_req (sys : Sys) (sid : Nat) (bus : List Nat) : Sys × Nat :=
  match sys.sessions.lookup sid with
  | some st =>
      if st.stage = Stage.negotiating ∧ bus ∈ sys.registered ∧
          (∀ p ∈ sys.sessions, p.2.stage ≠ Stage.attached bus) then
        ({sys with sessions := (updateSession sys.sessions sid
            ⟨Stage.attached bus, st.pending⟩)}, STATUS_OK)
      else (sys, STATUS_ERROR)
  | none => (sys, STATUS_ERROR)

/-- Modelled from the spec: `submit_urb` begins an asynchronous hardware
    transfer and returns immediately with a correlation token (the
    submission's `seq_num`); the session registers a `PendingUrb` after
    validating `seq_num` uniqueness and forwards the transfer to the
    executor (sections 4.2, 4.3). -/
def submit_urb (sys : Sys) (sid : Nat) (cmd : cmd_submit_t) :
    Sys × Option Nat :=
  match sys.sessions.lookup sid with
  | some st =>
      match st.stage with
      | Stage.attached _ =>
          if ∀ p ∈ st.pending, p.seq_num ≠ cmd.header.seq_num then
            ({sys with
                sessions := updateSession sys.sessions sid
                  ⟨st.stage, st.pending ++
                    [⟨cmd.header.seq_num, cmd.header.direction,
                      cmd.header.endpoint, cmd.transfer_buffer_length⟩]⟩,
                hwPending := sys.hwPending ++ [cmd.header.seq_num]},
             some cmd.header.seq_num)
          else (sys, none)
      | _ => (sys, none)
  | none => (sys, none)

/-- Modelled from the spec: the hardware execution context finishes an
    accepted transfer and posts exactly one completion event into the
    completion channel (section 4.5). -/
def hw_complete (sys : Sys) (seq status alen : Nat) (payload : List Nat) :
    Sys :=
  if seq ∈ sys.hwPending then
    {sys with hwPending := sys.hwPending.erase seq,
              completions := sys.completions ++ [⟨seq, status, alen, payload⟩]}
  else sys

/-- Modelled from the spec: the reactor drains the completion channel; a
    completion matching a `PendingUrb` removes the pending entry and emits
    `RET_SUBMIT` with the same `seq_num` (section 4.3). -/
def deliver (sys : Sys) (sid seq : Nat) : Sys × Option ret_submit_t :=
  match sys.sessions.lookup sid with
  | some st =>
      match st.pending.find? (fun p => p.seq_num == seq),
          sys.completions.find? (fun c => c.seq_num == seq) with
      | some p, some c =>
          ({sys with
              sessions := updateSession sys.sessions sid
                ⟨st.stage, st.pending.filter (fun q => q.seq_num != seq)⟩,
              completions :=
                sys.completions.filter (fun c' => c'.seq_num != seq)},
           some ⟨⟨RET_SUBMIT, seq, 0, p.direction, p.endpoint⟩, c.status,
             c.actual_length, 0, 0, 0, 0, c.payload⟩)
      | _, _ => (sys, none)
  | none => (sys, none)

/-- Modelled from the spec: the three distinguishable outcomes of
    `unlink_urb` (section 4.2). -/
inductive UnlinkOutcome where
  | cancelled
  | alreadyCompleted
  | notFound
  deriving DecidableEq, Repr

/-- Modelled from the spec: `unlink_urb` requests cancellation of an
    outstanding transfer by its original `seq_num`; if the completion was
    already generated it reports `AlreadyCompleted` and the completion is
    kept, never discarded (sections 4.2, 5). -/
def unlink_urb (sys : Sys) (sid useq : Nat) : Sys × UnlinkOutcome :=
  if sys.completions.any (fun c => c.seq_num == useq) then
    (sys, UnlinkOutcome.alreadyCompleted)
  else if useq ∈ sys.hwPending then
    match sys.sessions.lookup sid with
    | some st =>
        ({sys with
            hwPending := sys.hwPending.erase useq,
            sessions := updateSession sys.sessions sid
              ⟨st.stage, st.pending.filter (fun p => p.seq_num != useq)⟩},
         UnlinkOutcome.cancelled)
    | none =>
        ({sys with hwPending := sys.hwPending.erase useq},
         UnlinkOutcome.cancelled)
  else (sys, UnlinkOutcome.notFound)

/-- Modelled from the spec: transport error or peer close moves the session
    to `Closed`, releasing the Device attachment (section 4.3). -/
def close_session (sys : Sys) (sid : Nat) : Sys :=
  match sys.sessions.lookup sid with
  | some st =>
      {sys with sessions := (updateSession sys.sessions sid
        ⟨Stage.closed, st.pending⟩)}
  | none => sys

/-- Initial state: the Provider's exported devices, and a set of
    distinctly-identified sessions all in `Negotiating`. -/
def initSys (registered : List (List Nat)) (sids : List Nat) : Sys :=
  ⟨registered, sids.map (fun sid => (sid, ⟨Stage.negotiating, []⟩)), [], []⟩

/-- States reachable from an initial state by the session engine's
    operations. -/
inductive Reachable : Sys → Prop where
  | init (registered : List (List Nat)) (sids : List Nat)
      (h : sids.Nodup) : Reachable (initSys registered sids)
  | import_step {sys : Sys} (h : Reachable sys) (sid : Nat)
      (bus : List Nat) : Reachable (import_req sys sid bus).1
  | submit_step {sys : Sys} (h : Reachable sys) (sid : Nat)
      (cmd : cmd_submit_t) : Reachable (submit_urb sys sid cmd).1
  | hw_step {sys : Sys} (h : Reachable sys) (seq status alen : Nat)
      (payload : List Nat) :
      Reachable (hw_complete sys seq status alen payload)
  | deliver_step {sys : Sys} (h : Reachable sys) (sid seq : Nat) :
      Reachable (deliver sys sid seq).1
  | unlink_step {sys : Sys} (h : Reachable sys) (sid useq : Nat) :
      Reachable (unlink_urb sys sid useq).1
  | close_step {sys : Sys} (h : Reachable sys) (sid : Nat) :
      Reachable (close_session sys sid)

/-- A Device is attached to at most one Session: for every `bus_id`, at
    most one session is in stage `attached bus`. -/
def ExclusiveAttach (sys : Sys) : Prop :=
  ∀ bus : List Nat,
    sys.sessions.countP (fun p => p.2.stage == Stage.attached bus) ≤ 1

/-- Session identifiers are distinct. -/
def KeysNodup (sys : Sys) : Prop :=
  (sys.sessions.map Prod.fst).Nodup

theorem keys_updateSession (l : List (Nat × SessionSt)) (sid : Nat)
    (st' : SessionSt) :
    (updateSession l sid st').map Prod.fst = l.map Prod.fst := by
  unfold updateSession
  rw [List.map_map]
  apply List.map_congr_left
  intro p _
  by_cases h : p.1 = sid <;> simp [h]

theorem lookup_mem_of_nodup :
    ∀ {l : List (Nat × SessionSt)} {sid : Nat} {st : SessionSt},
    (l.map Prod.fst).Nodup → l.lookup sid = some st →
    ∀ p ∈ l, p.1 = sid → p.2 = st := by
  intro l
  induction l with
  | nil => intro sid st _ hlk; simp [List.lookup] at hlk
  | cons q t ih =>
    intro sid st hn hlk p hp hkey
    rw [List.lookup_cons] at hlk
    rcases List.mem_cons.mp hp with hp | hp
    · subst hp
      have hq : (sid == p.1) = true := by simp [hkey]
      simp only [hq] at hlk
      simpa using hlk
    · by_cases hq : sid = q.1
      · exfalso
        have hmem : q.1 ∈ t.map Prod.fst := by
          rw [← hq, ← hkey]
          exact List.mem_map_of_mem Prod.fst hp
        simp only [List.map_cons, List.nodup_cons] at hn
        exact hn.1 hmem
      · have hq' : (sid == q.1) = false := by simp [hq]
        simp only [hq'] at hlk
        have hn' : (t.map Prod.fst).Nodup := by
          simp only [List.map_cons, List.nodup_cons] at hn
          exact hn.2
        exact ih hn' hlk p hp hkey

theorem countP_key_le_one {l : List (Nat × SessionSt)} {sid : Nat}
    (hn : (l.map Prod.fst).Nodup) :
    l.countP (fun p => p.1 == sid) ≤ 1 := by
  have h1 : (l.map Prod.fst).countP (· == sid) =
      l.countP (fun p => p.1 == sid) := by
    rw [List.countP_map]; rfl
  rw [← h1]
  have := List.nodup_iff_count_le_one.mp hn sid
  rwa [List.count_eq_countP] at this

/-- Attaching a session to a so-far-unattached device keeps every device
    attached to at most one session. -/
theorem countP_update_attach {l : List (Nat × SessionSt)} {sid : Nat}
    {bus0 : List Nat} {st' : SessionSt}
    (hn : (l.map Prod.fst).Nodup)
    (hpre : ∀ p ∈ l, p.2.stage ≠ Stage.attached bus0)
    (hst' : st'.stage = Stage.attached bus0)
    (hex : ∀ bus : List Nat,
      l.countP (fun p => p.2.stage == Stage.attached bus) ≤ 1) :
    ∀ bus : List Nat,
      (updateSession l sid st').countP
        (fun p => p.2.stage == Stage.attached bus) ≤ 1 := by
  intro bus
  unfold updateSession
  rw [List.countP_map]
  by_cases hb : bus = bus0
  · subst hb
    have hcong : l.countP (fun p =>
        ((fun p => p.2.stage == Stage.attached bus) ∘
          (fun p => if p.1 = sid then (p.1, st') else p)) p) =
        l.countP (fun p => p.1 == sid) := by
      apply List.countP_congr
      intro p hp
      by_cases hk : p.1 = sid <;>
        simp [hk, hst', hpre p hp]
    rw [hcong]
    exact countP_key_le_one hn
  · calc l.countP (fun p =>
        ((fun p => p.2.stage == Stage.attached bus) ∘
          (fun p => if p.1 = sid then (p.1, st') else p)) p) ≤
        l.countP (fun p => p.2.stage == Stage.attached bus) := by
          apply List.countP_mono_left
          intro p _ hpf
          by_cases hk : p.1 = sid
          · simp [hk, hst'] at hpf
            exact absurd hpf.symm hb
          · simpa [hk] using hpf
      _ ≤ 1 := hex bus

/-- Updating a session without changing its stage leaves every
    attachment count unchanged. -/
theorem countP_update_stage_eq {l : List (Nat × SessionSt)} {sid : Nat}
    {st : SessionSt} (st' : SessionSt)
    (hn : (l.map Prod.fst).Nodup) (hlk : l.lookup sid = some st)
    (hstage : st'.stage = st.stage) (bus : List Nat) :
    (updateSession l sid st').countP
        (fun p => p.2.stage == Stage.attached bus) =
      l.countP (fun p => p.2.stage == Stage.attached bus) := by
  unfold updateSession
  rw [List.countP_map]
  apply List.countP_congr
  intro p hp
  by_cases hk : p.1 = sid
  · have := lookup_mem_of_nodup hn hlk p hp hk
    simp [hk, hstage, this]
  · simp [hk]

/-- Closing a session never increases any attachment count. -/
theorem countP_update_closed {l : List (Nat × SessionSt)} {sid : Nat}
    {st' : SessionSt} (hst' : st'.stage = Stage.closed) (bus : List Nat) :
    (updateSession l sid st').countP
        (fun p => p.2.stage == Stage.attached bus) ≤
      l.countP (fun p => p.2.stage == Stage.attached bus) := by
  unfold updateSession
  rw [List.countP_map]
  apply List.countP_mono_left
  intro p _ hpf
  by_cases hk : p.1 = sid
  · simp [hk, hst'] at hpf
  · simpa [hk] using hpf

/-- Every reachable state of the session engine has distinct session
    identifiers and the exclusive-attach invariant. -/
theorem reachable_inv {sys : Sys} (h : Reachable sys) :
    KeysNodup sys ∧ ExclusiveAttach sys := by
  induction h with
  | init registered sids hn =>
    constructor
    · unfold KeysNodup initSys
      simp only [List.map_map]
      have hcomp : (Prod.fst ∘ fun sid : Nat =>
          (sid, (⟨Stage.negotiating, []⟩ : SessionSt))) = id := rfl
      rw [hcomp, List.map_id]
      exact hn
    · intro bus
      unfold initSys
      simp [List.countP_map]
      rw [List.countP_eq_zero.mpr (by intro a _; simp [Function.comp])]
      omega
  | import_step h sid bus ih =>
    obtain ⟨ihk, ihe⟩ := ih
    unfold import_req
    split
    · next st hlk =>
      split
      · next hcond =>
        refine ⟨?_, ?_⟩
        · unfold KeysNodup at ihk ⊢
          simpa [keys_updateSession] using ihk
        · intro b
          simp only []
          exact countP_update_attach ihk hcond.2.2 rfl ihe b
      · exact ⟨ihk, ihe⟩
    · exact ⟨ihk, ihe⟩
  | submit_step h sid cmd ih =>
    obtain ⟨ihk, ihe⟩ := ih
    unfold submit_urb
    split
    · next st hlk =>
      split
      · by_cases hcond : ∀ p ∈ st.pending, p.seq_num ≠ cmd.header.seq_num
        · simp only [if_pos hcond]
          refine ⟨?_, ?_⟩
          · unfold KeysNodup at ihk ⊢
            simpa [keys_updateSession] using ihk
          · intro b
            simp only []
            exact le_trans
              (Nat.le_of_eq (countP_update_stage_eq
                ⟨st.stage, st.pending ++
                  [⟨cmd.header.seq_num, cmd.header.direction,
                    cmd.header.endpoint, cmd.transfer_buffer_length⟩]⟩
                ihk hlk rfl b))
              (ihe b)
        · simp only [if_neg hcond]
          exact ⟨ihk, ihe⟩
      · exact ⟨ihk, ihe⟩
    · exact ⟨ihk, ihe⟩
  | hw_step h seq status alen payload ih =>
    obtain ⟨ihk, ihe⟩ := ih
    unfold hw_complete
    split
    · exact ⟨ihk, ihe⟩
    · exact ⟨ihk, ihe⟩
  | deliver_step h sid seq ih =>
    obtain ⟨ihk, ihe⟩ := ih
    unfold deliver
    split
    · next st hlk =>
      split
      · next p c hfp hfc =>
        refine ⟨?_, ?_⟩
        · unfold KeysNodup at ihk ⊢
          simpa [keys_updateSession] using ihk
        · intro b
          simp only []
          exact le_trans
            (Nat.le_of_eq (countP_update_stage_eq
              ⟨st.stage, st.pending.filter (fun q => q.seq_num != seq)⟩
              ihk hlk rfl b))
            (ihe b)
      · exact ⟨ihk, ihe⟩
    · exact ⟨ihk, ihe⟩
  | unlink_step h sid useq ih =>
    obtain ⟨ihk, ihe⟩ := ih
    unfold unlink_urb
    split
    · exact ⟨ihk, ihe⟩
    · split
      · split
        · next st hlk =>
          refine ⟨?_, ?_⟩
          · unfold KeysNodup at ihk ⊢
            simpa [keys_updateSession] using ihk
          · intro b
            simp only []
            exact le_trans
              (Nat.le_of_eq (countP_update_stage_eq
                ⟨st.stage, st.pending.filter (fun p => p.seq_num != useq)⟩
                ihk hlk rfl b))
              (ihe b)
        · exact ⟨ihk, ihe⟩
      · exact ⟨ihk, ihe⟩
  | close_step h sid ih =>
    obtain ⟨ihk, ihe⟩ := ih
    unfold close_session
    cases hlk : (Sys.sessions _).lookup sid with
    | none => exact ⟨ihk, ihe⟩
    | some st =>
      refine ⟨?_, ?_⟩
      · unfold KeysNodup at ihk ⊢
        simpa [keys_updateSession] using ihk
      · intro b
        exact le_trans (countP_update_closed rfl b) (ihe b)

/- Concrete scenario: two imports of the same bus id -/

/-- The bus id string "1-1" as bytes. -/
def c3Bus : List Nat := [49, 45, 49]

/-- Initial state: one exported device, two negotiating sessions. -/
def c3Sys0 : Sys := initSys [c3Bus] [1, 2]

/-- After session 1 imported the device. -/
def c3Sys1 : Sys := (import_req c3Sys0 1 c3Bus).1

/-- After session 2's import of the same bus id was processed. -/
def c3Sys2 : Sys := (import_req c3Sys1 2 c3Bus).1

/-- An IN transfer submission with sequence number 5. -/
def c3Cmd : cmd_submit_t :=
  ⟨⟨CMD_SUBMIT, 5, 2, DIR_IN, 129⟩, 0, 2, 0, 0, 0, 0, []⟩

/-- Claim C3: in every reachable state each Device is attached to at most
    one Session; when two `OP_REQ_IMPORT` for the same `bus_id` are
    processed, the second receives `status = ERROR` while the first's
    Session remains attached and can still submit a URB and receive its
    `RET_SUBMIT`. -/
theorem C3_exclusive_attach :
    (∀ sys : Sys, Reachable sys → ExclusiveAttach sys) ∧
    ((import_req c3Sys0 1 c3Bus).2 = STATUS_OK ∧
     (import_req c3Sys1 2 c3Bus).2 = STATUS_ERROR ∧
     c3Sys2.sessions.lookup 1 = some ⟨Stage.attached c3Bus, []⟩ ∧
     (submit_urb c3Sys2 1 c3Cmd).2 = some 5 ∧
     (deliver (hw_complete (submit_urb c3Sys2 1 c3Cmd).1 5 0 2 [170, 187])
        1 5).2 =
       some ⟨⟨RET_SUBMIT, 5, 0, 1, 129⟩, 0, 2, 0, 0, 0, 0, [170, 187]⟩) :=
  ⟨fun _ h => (reachable_inv h).2, by decide⟩

/-- Witness for C3 at a concrete reachable state. -/
theorem C3_exclusive_attach_witness : ExclusiveAttach c3Sys0 :=
  C3_exclusive_attach.1 c3Sys0 (Reachable.init [c3Bus] [1, 2] (by decide))

/-- Claim C4: an accepted submission returns immediately with a correlation
    token (the submission's `seq_num`), not the transfer's result — the
    completion channel is untouched by the call itself — and the completion
    `(status, actual_length, payload)` is delivered later through the
    Transfer Executor's completion channel once the hardware finishes. -/
theorem C4_submit_async (sys : Sys) (sid : Nat) (cmd : cmd_submit_t)
    (tok : Nat) (hacc : (submit_urb sys sid cmd).2 = some tok) :
    tok = cmd.header.seq_num ∧
    (submit_urb sys sid cmd).1.completions = sys.completions ∧
    ∀ (status alen : Nat) (payload : List Nat),
      (⟨cmd.header.seq_num, status, alen, payload⟩ : Completion) ∈
        (hw_complete (submit_urb sys sid cmd).1 cmd.header.seq_num
          status alen payload).completions := by
  unfold submit_urb at hacc ⊢
  split at hacc
  · next st heq =>
    split at hacc
    · next heq2 =>
      split at hacc
      · next hcond =>
        simp only [heq, heq2, if_pos hcond]
        simp only [] at hacc
        refine ⟨Option.some_injective _ hacc.symm, by trivial, ?_⟩
        intro status alen payload
        unfold hw_complete
        rw [if_pos (by simp)]
        simp
      · simp at hacc
    · next heq2 => simp at hacc
  · simp at hacc

/-- Witness for C4 at a concrete accepted submission. -/
theorem C4_submit_async_witness :
    5 = c3Cmd.header.seq_num ∧
    (submit_urb c3Sys2 1 c3Cmd).1.completions = c3Sys2.completions ∧
    ∀ (status alen : Nat) (payload : List Nat),
      (⟨c3Cmd.header.seq_num, status, alen, payload⟩ : Completion) ∈
        (hw_complete (submit_urb c3Sys2 1 c3Cmd).1 c3Cmd.header.seq_num
          status alen payload).completions :=
  C4_submit_async c3Sys2 1 c3Cmd 5 (by decide)

end session

namespace usbip

/-- The return type of `usbip::Device::unlink_urb` as declared in
    src/Firmware/main/include/usbip_controller.hpp: `bool`. -/
abbrev UnlinkResult := Bool

/-- Embedding of the abstract class `usbip::Device`
    (src/Firmware/main/include/usbip_controller.hpp): `get_descriptor()`
    returns the device descriptor, `get_interfaces()` the interface list,
    `submit_urb(cmd, data, length)` returns a `std::pair<const uint8_t*,
    size_t>` (a byte buffer and a size), and `unlink_urb(cmd)` returns
    `bool`. -/
structure Device where
  get_descriptor : device_descriptor_t
  get_interfaces : List device_interface_t
  submit_urb : cmd_submit_t → List Nat → Nat → (List Nat × Nat)
  unlink_urb : cmd_unlink_t → UnlinkResult

/-- Claim C5, counterexample: the declared result type of
    `usbip::Device::unlink_urb` is `bool`, so there do not exist three
    pairwise distinct result values Cancelled / AlreadyCompleted /
    NotFound. -/
theorem C5_unlink_result_counterexample :
    ¬ ∃ a b c : UnlinkResult, a ≠ b ∧ a ≠ c ∧ b ≠ c := by decide

end usbip

namespace session

/-- A state whose completion channel already holds a completion for
    sequence number 5. -/
def c5Sys : Sys := ⟨[], [], [], [⟨5, 0, 0, []⟩]⟩

/-- Claim C5, amended: the `unlink_urb` declared in the repository returns
    a two-valued `bool`, which cannot distinguish Cancelled,
    AlreadyCompleted and NotFound; in the spec's session model (where the
    three outcomes exist) an unlink never discards a completion that was
    already generated, and reports AlreadyCompleted for it. -/
theorem C5_unlink_no_discard :
    (∀ (d : usbip.Device) (cmd : usbip.cmd_unlink_t),
      d.unlink_urb cmd = true ∨ d.unlink_urb cmd = false) ∧
    (∀ (sys : Sys) (sid useq : Nat),
      ((unlink_urb sys sid useq).1).completions = sys.completions ∧
      (sys.completions.any (fun c => c.seq_num == useq) = true →
        (unlink_urb sys sid useq).2 = UnlinkOutcome.alreadyCompleted)) := by
  constructor
  · intro d cmd
    cases h : d.unlink_urb cmd
    · right; rfl
    · left; rfl
  · intro sys sid useq
    constructor
    · unfold unlink_urb
      split
      · rfl
      · split
        · split
          · rfl
          · rfl
        · rfl
    · intro hany
      unfold unlink_urb
      rw [if_pos hany]

/-- Witness for C5 at a concrete state with a queued completion. -/
theorem C5_unlink_no_discard_witness :
    ((unlink_urb c5Sys 1 5).1).completions = c5Sys.completions ∧
    (unlink_urb c5Sys 1 5).2 = UnlinkOutcome.alreadyCompleted :=
  ⟨(C5_unlink_no_discard.2 c5Sys 1 5).1,
   (C5_unlink_no_discard.2 c5Sys 1 5).2 (by decide)⟩

end session

/- ------------------------------------------------------------------ -/
/- TCP server (src/Firmware/main/tcp_server.cpp and its header)       -/
/- ------------------------------------------------------------------ -/

namespace server

/-- `MAX_CLIENTS` (include/tcp_server.hpp, line 8). -/
def MAX_CLIENTS : Nat := 64

/-- Embedding of `server::client_info_t` (include/tcp_server.hpp):
    socket, active flag, `last_activity` timestamp, peer address.  Note
    there is no send buffer field. -/
structure client_info_t where
  sock : Nat
  active : Bool
  last_activity : Nat
  addr : Nat
  deriving DecidableEq, Repr

/-- `client_timeout_seconds_` (include/tcp_server.hpp, line 51). -/
def client_timeout_seconds : Nat := 60

/-- `cleanup_interval_seconds_` (include/tcp_server.hpp, line 52). -/
def cleanup_interval_seconds : Nat := 10

/-- `buffer_size_` (include/tcp_server.hpp, line 53). -/
def buffer_size : Nat := 1536

/-- `max_response_size` (tcp_server.cpp, line 210). -/
def max_response_size : Nat := 1024 * 64

/-- Observable side effects of the server's handling code. -/
inductive Effect where
  | closeSock (sock : Nat)
  | sendBytes (sock : Nat) (bytes : List Nat)
  | onConnect (sock : Nat) (addr : Nat)
  | onDisconnect (sock : Nat)
  deriving DecidableEq, Repr

/-- The slot-reuse scan of `handle_new_connection` (tcp_server.cpp, lines
    164-174): the first inactive slot, if any, receives the new client. -/
def assignSlot : List client_info_t → client_info_t →
    Option (List client_info_t)
  | [], _ => none
  | c :: rest, nc =>
      if c.active = false then some (nc :: rest)
      else (assignSlot rest nc).map (c :: ·)

/-- Embedding of `TcpServer::handle_new_connection` (tcp_server.cpp, lines
    138-195) after a successful `accept` and `set_nonblocking`: reuse the
    first inactive slot; otherwise grow the vector if below `MAX_CLIENTS`;
    otherwise close the new socket immediately (no bytes are ever sent).
    Returns the new client list, whether the connection was added, and the
    effects. -/
def handle_new_connection (clients : List client_info_t)
    (client_sock now addr : Nat) :
    List client_info_t × Bool × List Effect :=
  let nc : client_info_t := ⟨client_sock, true, now, addr⟩
  match assignSlot clients nc with
  | some clients' => (clients', true, [Effect.onConnect client_sock addr])
  | none =>
      if clients.length < MAX_CLIENTS then
        (clients ++ [nc], true, [Effect.onConnect client_sock addr])
      else
        (clients, false, [Effect.closeSock client_sock])

/-- Embedding of `TcpServer::cleanup_inactive_clients` (tcp_server.cpp,
    lines 284-298): every active client idle strictly longer than
    `client_timeout_seconds_` is closed and deactivated; all others are
    untouched. -/
def cleanup_inactive_clients (clients : List client_info_t) (now : Nat) :
    List client_info_t × List Effect :=
  (clients.map (fun c =>
      if c.active = true ∧ now - c.last_activity > client_timeout_seconds
      then {c with active := false} else c),
   ((clients.filter (fun c => c.active &&
       decide (now - c.last_activity > client_timeout_seconds))).map
     (fun c => [Effect.onDisconnect c.sock, Effect.closeSock c.sock])).flatten)

/-- One reactor iteration under zero load (tcp_server.cpp, lines 94-135):
    `select` timed out with no readiness, so only the periodic cleanup can
    run; it runs precisely when `cleanup_interval_seconds_` have elapsed
    since the last cleanup. -/
def handle_clients_idle_iteration (clients : List client_info_t)
    (now last_cleanup : Nat) : List client_info_t × Nat × List Effect :=
  if now - last_cleanup ≥ cleanup_interval_seconds then
    ((cleanup_inactive_clients clients now).1, now,
      (cleanup_inactive_clients clients now).2)
  else (clients, last_cleanup, [])

/-- Result of the non-blocking `recv` (tcp_server.cpp, line 200). -/
inductive RecvOutcome where
  | data (bytes : List Nat)
  | closed
  | fatalError
  | wouldBlock
  deriving DecidableEq, Repr

/-- Result of the non-blocking `send` (tcp_server.cpp, line 248). -/
inductive SendResult where
  | sent (n : Nat)
  | wouldBlock
  | fatal
  deriving DecidableEq, Repr

/-- The length `strlen` computes on a reply: the number of bytes before the
    first zero byte. -/
def cstrlen (s : List Nat) : Nat := (s.takeWhile (fun b => b != 0)).length

/-- Embedding of `TcpServer::handle_client_data` (tcp_server.cpp, lines
    197-275) with the message handler installed.  On received data the
    handler's reply is measured with `strlen`; an oversized reply (or the
    handler itself signalling close with an empty string) closes the
    connection with nothing sent; otherwise the first `strlen` bytes are
    passed to `send`.  A fatal send error closes the connection.  A short
    or would-block send only logs a warning: the remainder is not kept
    anywhere (the state has no send buffer) and the sent count does not
    influence the result. -/
def handle_client_data (handler : List Nat → Nat → Nat → List Nat)
    (client : client_info_t) (now : Nat) (rcv : RecvOutcome)
    (snd : SendResult) : client_info_t × List Effect :=
  match rcv with
  | RecvOutcome.data bytes =>
      let client' : client_info_t := {client with last_activity := now}
      let response := handler bytes bytes.length client.sock
      if cstrlen response > max_response_size then
        ({client' with active := false},
         [Effect.onDisconnect client.sock, Effect.closeSock client.sock])
      else if cstrlen response = 0 then
        ({client' with active := false},
         [Effect.onDisconnect client.sock, Effect.closeSock client.sock])
      else
        match snd with
        | SendResult.fatal =>
            ({client' with active := false},
             [Effect.sendBytes client.sock
                (response.takeWhile (fun b => b != 0)),
              Effect.onDisconnect client.sock,
              Effect.closeSock client.sock])
        | _ =>
            (client', [Effect.sendBytes client.sock
              (response.takeWhile (fun b => b != 0))])
  | RecvOutcome.wouldBlock => (client, [])
  | _ =>
      ({client with active := false},
       [Effect.onDisconnect client.sock, Effect.closeSock client.sock])

/-- Handler type, from `server::client_handler_t`
    (include/tcp_server.hpp, lines 12-13). -/
def HandlerFn := List Nat → Nat → Nat → List Nat

/-- Embedding of the `TcpServer` state relevant to start-up: whether a
    message handler is set and whether the server task was created
    (tcp_server.cpp, lines 14-34). -/
structure TcpServer where
  message_handler : Option HandlerFn
  task_created : Bool

/-- `TcpServer::set_message_handler` (tcp_server.cpp, lines 14-16). -/
def set_message_handler (s : TcpServer) (h : HandlerFn) : TcpServer :=
  {s with message_handler := some h}

/-- Socket-level operations performed by the server task. -/
inductive ServerOp where
  | taskCreate (port : Nat)
  | socketBind (port : Nat)
  | socketListen
  deriving DecidableEq, Repr

/-- Embedding of `TcpServer::start` (tcp_server.cpp, lines 26-34): with no
    message handler set it logs an error and returns without creating the
    server task; otherwise it creates the task, whose body is the only code
    that creates, binds and listens on the server socket and accepts
    connections (lines 36-87). -/
def start (s : TcpServer) (port : Nat) : TcpServer × List ServerOp :=
  match s.message_handler with
  | none => (s, [])
  | some _ =>
      ({s with task_created := true},
       [ServerOp.taskCreate port, ServerOp.socketBind port,
        ServerOp.socketListen])

/- Helper lemmas about the slot scan -/

theorem assignSlot_none_of_all_active {clients : List client_info_t}
    (nc : client_info_t) (h : ∀ c ∈ clients, c.active = true) :
    assignSlot clients nc = none := by
  induction clients with
  | nil => rfl
  | cons c rest ih =>
    have hc : c.active = true := h c (by simp)
    have hrest : ∀ c' ∈ rest, c'.active = true :=
      fun c' hc' => h c' (by simp [hc'])
    simp [assignSlot, hc, ih hrest]

theorem assignSlot_length :
    ∀ {clients l' : List client_info_t} {nc : client_info_t},
    assignSlot clients nc = some l' → l'.length = clients.length := by
  intro clients
  induction clients with
  | nil => intro l' nc h; simp [assignSlot] at h
  | cons c rest ih =>
    intro l' nc h
    unfold assignSlot at h
    by_cases hc : c.active = false
    · rw [if_pos hc] at h
      cases h
      simp
    · rw [if_neg hc] at h
      cases hrec : assignSlot rest nc with
      | none => rw [hrec] at h; simp at h
      | some t =>
        rw [hrec] at h
        simp at h
        rw [← h]
        simp [ih hrec]

theorem assignSlot_mem :
    ∀ {clients l' : List client_info_t} {nc : client_info_t},
    assignSlot clients nc = some l' → nc ∈ l' := by
  intro clients
  induction clients with
  | nil => intro l' nc h; simp [assignSlot] at h
  | cons c rest ih =>
    intro l' nc h
    unfold assignSlot at h
    by_cases hc : c.active = false
    · rw [if_pos hc] at h
      cases h
      simp
    · rw [if_neg hc] at h
      cases hrec : assignSlot rest nc with
      | none => rw [hrec] at h; simp at h
      | some t =>
        rw [hrec] at h
        simp at h
        rw [← h]
        simp [ih hrec]

/-- Claim C6: when no free Connection slot exists (every slot active and
    the fixed maximum `MAX_CLIENTS` reached), a newly accepted socket is
    closed immediately and no reply bytes are sent to it; an accepted
    connection is stored in a slot; and the number of slots, hence of
    active Connections, never exceeds `MAX_CLIENTS`. -/
theorem C6_connection_slot_limit :
    (∀ (clients : List client_info_t) (sock now addr : Nat),
      (∀ c ∈ clients, c.active = true) → MAX_CLIENTS ≤ clients.length →
      handle_new_connection clients sock now addr =
        (clients, false, [Effect.closeSock sock])) ∧
    (∀ (clients : List client_info_t) (sock now addr : Nat),
      (handle_new_connection clients sock now addr).2.1 = true →
      (⟨sock, true, now, addr⟩ : client_info_t) ∈
        (handle_new_connection clients sock now addr).1) ∧
    (∀ (clients : List client_info_t) (sock now addr : Nat),
      clients.length ≤ MAX_CLIENTS →
      (handle_new_connection clients sock now addr).1.length ≤ MAX_CLIENTS ∧
      (handle_new_connection clients sock now addr).1.countP
        (fun c => c.active) ≤ MAX_CLIENTS) := by
  refine ⟨?_, ?_, ?_⟩
  · intro clients sock now addr hall hfull
    unfold handle_new_connection
    simp only []
    rw [assignSlot_none_of_all_active _ hall]
    simp only []
    rw [if_neg (by omega)]
  · intro clients sock now addr hadd
    unfold handle_new_connection at hadd ⊢
    simp only [] at hadd ⊢
    cases has : assignSlot clients ⟨sock, true, now, addr⟩ with
    | some l' =>
      simp only [has]
      exact assignSlot_mem has
    | none =>
      simp only [has] at hadd ⊢
      by_cases hlen : clients.length < MAX_CLIENTS
      · rw [if_pos hlen]
        simp
      · rw [if_neg hlen] at hadd
        simp at hadd
  · intro clients sock now addr hlen
    unfold handle_new_connection
    simp only []
    cases has : assignSlot clients ⟨sock, true, now, addr⟩ with
    | some l' =>
      simp only [has]
      constructor
      · rw [assignSlot_length has]; exact hlen
      · exact le_trans (List.countP_le_length _)
          (by rw [assignSlot_length has]; exact hlen)
    | none =>
      simp only [has]
      by_cases hl : clients.length < MAX_CLIENTS
      · rw [if_pos hl]
        constructor
        · simp; omega
        · exact le_trans (List.countP_le_length _) (by simp; omega)
      · rw [if_neg hl]
        exact ⟨hlen, le_trans (List.countP_le_length _) hlen⟩

/-- Witness for C6: a full table of 64 active clients rejects the next
    connection with an immediate close and no bytes sent. -/
theorem C6_connection_slot_limit_witness :
    handle_new_connection (List.replicate 64 ⟨9, true, 0, 0⟩) 7 100 3 =
      (List.replicate 64 ⟨9, true, 0, 0⟩, false, [Effect.closeSock 7]) :=
  C6_connection_slot_limit.1 (List.replicate 64 ⟨9, true, 0, 0⟩) 7 100 3
    (by decide) (by decide)

/-- Claim C7: the periodic sweep closes every Connection idle strictly
    longer than the configured timeout, never closes one within the
    timeout, and runs on an idle reactor iteration (zero load) whenever the
    cleanup interval has elapsed. -/
theorem C7_idle_reclamation :
    (∀ (clients : List client_info_t) (now : Nat) (c : client_info_t),
      c ∈ clients → c.active = true →
      client_timeout_seconds < now - c.last_activity →
      Effect.closeSock c.sock ∈ (cleanup_inactive_clients clients now).2 ∧
      ({c with active := false}) ∈ (cleanup_inactive_clients clients now).1) ∧
    (∀ (clients : List client_info_t) (now : Nat) (c : client_info_t),
      c ∈ clients → now - c.last_activity ≤ client_timeout_seconds →
      c ∈ (cleanup_inactive_clients clients now).1) ∧
    (∀ (s : Nat) (clients : List client_info_t) (now : Nat),
      Effect.closeSock s ∈ (cleanup_inactive_clients clients now).2 →
      ∃ c ∈ clients, c.sock = s ∧ c.active = true ∧
        client_timeout_seconds < now - c.last_activity) ∧
    (∀ (clients : List client_info_t) (now last_cleanup : Nat),
      cleanup_interval_seconds ≤ now - last_cleanup →
      (handle_clients_idle_iteration clients now last_cleanup).1 =
        (cleanup_inactive_clients clients now).1) := by
  refine ⟨?_, ?_, ?_, ?_⟩
  · intro clients now c hc hact hidle
    constructor
    · unfold cleanup_inactive_clients
      simp only [List.mem_flatten]
      refine ⟨[Effect.onDisconnect c.sock, Effect.closeSock c.sock], ?_, ?_⟩
      · apply List.mem_map_of_mem
        rw [List.mem_filter]
        exact ⟨hc, by simp [hact, hidle]⟩
      · simp
    · unfold cleanup_inactive_clients
      simp only []
      have hm := List.mem_map_of_mem (fun c : client_info_t =>
        if c.active = true ∧ now - c.last_activity > client_timeout_seconds
        then {c with active := false} else c) hc
      simpa [hact, hidle] using hm
  · intro clients now c hc hfresh
    unfold cleanup_inactive_clients
    simp only []
    have hm := List.mem_map_of_mem (fun c : client_info_t =>
      if c.active = true ∧ now - c.last_activity > client_timeout_seconds
      then {c with active := false} else c) hc
    simpa [Nat.not_lt.mpr hfresh] using hm
  · intro s clients now hmem
    unfold cleanup_inactive_clients at hmem
    simp only [List.mem_flatten, List.mem_map] at hmem
    obtain ⟨l, ⟨c, hcf, hcl⟩, hel⟩ := hmem
    rw [List.mem_filter] at hcf
    subst hcl
    simp only [List.mem_cons, List.mem_singleton] at hel
    rcases hel with hel | hel | hel
    · exact absurd hel (by simp)
    · refine ⟨c, hcf.1, ?_, ?_, ?_⟩
      · cases hel; rfl
      · have := hcf.2; simp at this; exact this.1
      · have := hcf.2; simp at this; exact this.2
    · exact absurd hel (by simp)
  · intro clients now last_cleanup helapsed
    unfold handle_clients_idle_iteration
    rw [if_pos helapsed]

/-- Witness for C7 at a concrete timed-out client. -/
theorem C7_idle_reclamation_witness :
    Effect.closeSock 3 ∈
      (cleanup_inactive_clients [⟨3, true, 0, 9⟩] 100).2 ∧
    (⟨3, false, 0, 9⟩ : client_info_t) ∈
      (cleanup_inactive_clients [⟨3, true, 0, 9⟩] 100).1 :=
  C7_idle_reclamation.1 [⟨3, true, 0, 9⟩] 100 ⟨3, true, 0, 9⟩
    (by decide) (by decide) (by decide)

/-- A concrete client record (socket 5). -/
def c8Client : client_info_t := ⟨5, true, 0, 0⟩

/-- A handler replying with the two bytes 65, 66. -/
def c8Handler : List Nat → Nat → Nat → List Nat := fun _ _ _ => [65, 66]

/-- Claim C8, counterexample: after a partial send (1 of the reply's 2
    bytes accepted, no fatal error) the server's entire result — the
    per-client state and the effect list — is identical to the result of a
    complete send, and the post-state is the bare client record with a
    refreshed timestamp.  The unsent byte is recorded nowhere
    (`client_info_t` has no send buffer field), so it cannot be
    transmitted on a later writable-readiness: it is silently dropped. -/
theorem C8_partial_send_counterexample :
    handle_client_data c8Handler c8Client 100 (RecvOutcome.data [1])
        (SendResult.sent 1) =
      handle_client_data c8Handler c8Client 100 (RecvOutcome.data [1])
        (SendResult.sent 2) ∧
    (handle_client_data c8Handler c8Client 100 (RecvOutcome.data [1])
        (SendResult.sent 1)).1 = ⟨5, true, 100, 0⟩ := by
  constructor
  · rfl
  · rfl

/-- Claim C8, amended: on a reply send that is not a fatal socket error the
    server's result does not depend on how many bytes the socket accepted
    — a short send only logs a warning, the connection stays open with its
    timestamp refreshed, the single send attempt is the only effect, and no
    unsent bytes are retained anywhere for a later writable-readiness. -/
theorem C8_partial_send_dropped
    (handler : List Nat → Nat → Nat → List Nat) (client : client_info_t)
    (now : Nat) (bytes : List Nat) (n m : Nat) :
    handle_client_data handler client now (RecvOutcome.data bytes)
        (SendResult.sent n) =
      handle_client_data handler client now (RecvOutcome.data bytes)
        (SendResult.sent m) ∧
    (cstrlen (handler bytes bytes.length client.sock) ≠ 0 →
     cstrlen (handler bytes bytes.length client.sock) ≤ max_response_size →
     handle_client_data handler client now (RecvOutcome.data bytes)
         (SendResult.sent n) =
       ({client with last_activity := now},
        [Effect.sendBytes client.sock
          ((handler bytes bytes.length client.sock).takeWhile
            (fun b => b != 0))])) := by
  constructor
  · unfold handle_client_data
    by_cases h1 : cstrlen (handler bytes bytes.length client.sock) >
        max_response_size
    · simp [h1]
    · by_cases h2 : cstrlen (handler bytes bytes.length client.sock) = 0 <;>
        simp [h1, h2]
  · intro hne hle
    unfold handle_client_data
    simp only []
    rw [if_neg (by omega), if_neg hne]

/-- Witness for C8's amended claim at a concrete partial send. -/
theorem C8_partial_send_dropped_witness :
    handle_client_data c8Handler c8Client 100 (RecvOutcome.data [1])
        (SendResult.sent 1) =
      handle_client_data c8Handler c8Client 100 (RecvOutcome.data [1])
        (SendResult.sent 2) ∧
    handle_client_data c8Handler c8Client 100 (RecvOutcome.data [1])
        (SendResult.sent 1) =
      ({c8Client with last_activity := 100},
       [Effect.sendBytes c8Client.sock
         ((c8Handler [1] [1].length c8Client.sock).takeWhile
           (fun b => b != 0))]) :=
  ⟨(C8_partial_send_dropped c8Handler c8Client 100 [1] 1 2).1,
   (C8_partial_send_dropped c8Handler c8Client 100 [1] 1 2).2
     (by decide) (by decide)⟩

/-- Claim C9: the server only ever passes to `send` the bytes of the
    handler's reply that precede its first zero byte (replies are measured
    with `strlen`); a reply whose first byte is zero, or whose measured
    length exceeds 64 KiB, causes the connection to be closed with nothing
    sent; consequently a reply containing a zero byte is never transmitted
    in full. -/
theorem C9_reply_truncated_at_zero
    (handler : List Nat → Nat → Nat → List Nat) (client : client_info_t)
    (now : Nat) (bytes : List Nat) (snd : SendResult) :
    (∀ (s : Nat) (payload : List Nat),
      Effect.sendBytes s payload ∈
        (handle_client_data handler client now (RecvOutcome.data bytes)
          snd).2 →
      payload = (handler bytes bytes.length client.sock).takeWhile
        (fun b => b != 0)) ∧
    ((cstrlen (handler bytes bytes.length client.sock) = 0 ∨
      max_response_size < cstrlen (handler bytes bytes.length client.sock)) →
      ((handle_client_data handler client now (RecvOutcome.data bytes)
          snd).1.active = false ∧
       Effect.closeSock client.sock ∈
         (handle_client_data handler client now (RecvOutcome.data bytes)
           snd).2 ∧
       ∀ (s : Nat) (payload : List Nat),
         Effect.sendBytes s payload ∉
           (handle_client_data handler client now (RecvOutcome.data bytes)
             snd).2)) ∧
    (0 ∈ handler bytes bytes.length client.sock →
      ∀ (s : Nat) (payload : List Nat),
        Effect.sendBytes s payload ∈
          (handle_client_data handler client now (RecvOutcome.data bytes)
            snd).2 →
        payload ≠ handler bytes bytes.length client.sock) := by
  have hmain : ∀ (s : Nat) (payload : List Nat),
      Effect.sendBytes s payload ∈
        (handle_client_data handler client now (RecvOutcome.data bytes)
          snd).2 →
      payload = (handler bytes bytes.length client.sock).takeWhile
        (fun b => b != 0) := by
    intro s payload hmem
    unfold handle_client_data at hmem
    simp only [] at hmem
    by_cases h1 : cstrlen (handler bytes bytes.length client.sock) >
        max_response_size
    · rw [if_pos h1] at hmem
      simp at hmem
    · rw [if_neg h1] at hmem
      by_cases h2 : cstrlen (handler bytes bytes.length client.sock) = 0
      · rw [if_pos h2] at hmem
        simp at hmem
      · rw [if_neg h2] at hmem
        cases snd with
        | fatal => simp at hmem; exact hmem.2
        | sent n => simp at hmem; exact hmem.2
        | wouldBlock => simp at hmem; exact hmem.2
  refine ⟨hmain, ?_, ?_⟩
  · intro hbad
    have h1 : cstrlen (handler bytes bytes.length client.sock) >
          max_response_size ∨
        cstrlen (handler bytes bytes.length client.sock) = 0 := by
      rcases hbad with hbad | hbad
      · right; exact hbad
      · left; exact hbad
    unfold handle_client_data
    simp only []
    rcases h1 with h1 | h1
    · rw [if_pos h1]
      refine ⟨rfl, by simp, ?_⟩
      intro s payload hmem
      simp at hmem
    · by_cases hov : cstrlen (handler bytes bytes.length client.sock) >
          max_response_size
      · rw [if_pos hov]
        refine ⟨rfl, by simp, ?_⟩
        intro s payload hmem
        simp at hmem
      · rw [if_neg hov, if_pos h1]
        refine ⟨rfl, by simp, ?_⟩
        intro s payload hmem
        simp at hmem
  · intro hzero s payload hmem
    rw [hmain s payload hmem]
    intro heq
    have := List.takeWhile_eq_self_iff.mp heq 0 hzero
    simp at this

/-- Witness for C9: a handler reply with an interior zero byte. -/
def c9Handler : List Nat → Nat → Nat → List Nat := fun _ _ _ => [65, 0, 66]

/-- Witness for C9 at a concrete reply containing an interior zero. -/
theorem C9_reply_truncated_at_zero_witness :
    (∀ (s : Nat) (payload : List Nat),
      Effect.sendBytes s payload ∈
        (handle_client_data c9Handler c8Client 100 (RecvOutcome.data [1])
          (SendResult.sent 1)).2 →
      payload = (c9Handler [1] [1].length c8Client.sock).takeWhile
        (fun b => b != 0)) ∧
    (∀ (s : Nat) (payload : List Nat),
      Effect.sendBytes s payload ∈
        (handle_client_data c9Handler c8Client 100 (RecvOutcome.data [1])
          (SendResult.sent 1)).2 →
      payload ≠ c9Handler [1] [1].length c8Client.sock) :=
  ⟨(C9_reply_truncated_at_zero c9Handler c8Client 100 [1]
      (SendResult.sent 1)).1,
   (C9_reply_truncated_at_zero c9Handler c8Client 100 [1]
      (SendResult.sent 1)).2.2 (by decide)⟩

/-- Claim C10: starting the server without a message handler returns
    without creating the server task — so nothing is bound, listened on or
    accepted — and setting the handler afterwards does not start the
    server. -/
theorem C10_start_requires_handler :
    (∀ port : Nat, start ⟨none, false⟩ port = (⟨none, false⟩, [])) ∧
    (∀ (port : Nat) (h : HandlerFn),
      (set_message_handler (start ⟨none, false⟩ port).1 h).task_created =
        false) :=
  ⟨fun _ => rfl, fun _ _ => rfl⟩

end server

end Fluidity
